import Mathlib

/-!
Verification of the wicket-rs markup tokenizer / filter pipeline / assembler core.

The Rust sources are shallowly embedded: text is a list of characters, every
position is a byte offset (as in Rust, where str indexing is byte based), and
machine-usize wraparound is made explicit modulo 2^64.  Fallible Rust code
returns a result type with an explicit constructor for panics (out-of-bounds
slicing, integer underflow in the error path).
-/

namespace WicketRs

/-- Byte length of one character in UTF-8, as Rust char::len_utf8. -/
def csize (c : Char) : Nat :=
  if c.toNat < 0x80 then 1
  else if c.toNat < 0x800 then 2
  else if c.toNat < 0x10000 then 3
  else 4

/-- Total number of UTF-8 bytes of a character list (Rust str::len). -/
def byteLen (cs : List Char) : Nat :=
  cs.foldr (fun c n => csize c + n) 0

/-- UTF-8 encoding of one character (byte values). -/
def utf8Enc (c : Char) : List Nat :=
  let n := c.toNat
  if n < 0x80 then [n]
  else if n < 0x800 then [0xC0 + n / 64, 0x80 + n % 64]
  else if n < 0x10000 then [0xE0 + n / 4096, 0x80 + n / 64 % 64, 0x80 + n % 64]
  else [0xF0 + n / 262144, 0x80 + n / 4096 % 64, 0x80 + n / 64 % 64, 0x80 + n % 64]

/-- All UTF-8 bytes of a character list (Rust str::as_bytes). -/
def toBytes (cs : List Char) : List Nat :=
  cs.foldr (fun c bs => utf8Enc c ++ bs) []

/-- Drop n UTF-8 bytes from the front; none when n is not a character
boundary or exceeds the length (Rust slicing s[n..] panics there). -/
def byteDrop : List Char → Nat → Option (List Char)
  | cs, 0 => some cs
  | [], _ + 1 => none
  | c :: cs, n + 1 =>
    if csize c ≤ n + 1 then byteDrop cs (n + 1 - csize c) else none

/-- Take exactly n UTF-8 bytes from the front; none when n is not a
character boundary of the list or exceeds its length. -/
def byteTake : List Char → Nat → Option (List Char)
  | _, 0 => some []
  | [], _ + 1 => none
  | c :: cs, n + 1 =>
    if csize c ≤ n + 1 then (byteTake cs (n + 1 - csize c)).map (c :: ·) else none

/-- A half-open byte range, as Rust core::ops::Range of usize. -/
structure Rng where
  lo : Nat
  hi : Nat
deriving DecidableEq, Repr

/-- Range length, as Rust Range::len (saturating for inverted ranges). -/
def Rng.len (r : Rng) : Nat := r.hi - r.lo

/-- Rust Range::is_empty: start is not below end. -/
def Rng.isEmptyR (r : Rng) : Bool := r.hi ≤ r.lo

/-- Substring by byte range; none exactly when Rust s[a..b] would panic. -/
def byteSlice (cs : List Char) (r : Rng) : Option (List Char) :=
  if r.lo ≤ r.hi then (byteDrop cs r.lo).bind (fun t => byteTake t (r.hi - r.lo)) else none

/-- Character whose UTF-8 encoding starts at the given byte offset. -/
def byteGet (cs : List Char) (n : Nat) : Option Char :=
  (byteDrop cs n).bind List.head?

/-- The raw byte at an index, read as a char (Rust s.as_bytes()[pos] as char);
none when the index is out of bounds (a Rust panic). -/
def byteAt (cs : List Char) (pos : Nat) : Option Char :=
  ((toBytes cs)[pos]?).map Char.ofNat

/-- First byte offset at which the pattern occurs as a sublist
(Rust str::find for a string pattern). -/
def listFindStr (cs pat : List Char) : Option Nat :=
  if pat.isPrefixOf cs then some 0
  else
    match cs with
    | [] => none
    | c :: rest => (listFindStr rest pat).map (· + csize c)

/-- First byte offset of a character (Rust str::find for a char pattern). -/
def listFindChar (cs : List Char) (ch : Char) : Option Nat :=
  match cs with
  | [] => none
  | c :: rest => if c = ch then some 0 else (listFindChar rest ch).map (· + csize c)

/-- First byte offset of a character satisfying the predicate
(Rust str::find with a closure pattern). -/
def listFindPred (cs : List Char) (p : Char → Bool) : Option Nat :=
  match cs with
  | [] => none
  | c :: rest => if p c then some 0 else (listFindPred rest p).map (· + csize c)

/-- Whether the pattern occurs as a contiguous sublist (Rust str::contains). -/
def containsSub (cs pat : List Char) : Bool :=
  (listFindStr cs pat).isSome

/-- ASCII lower-casing of one character (Rust to_ascii_lowercase). -/
def asciiLower (c : Char) : Char :=
  if 0x41 ≤ c.toNat ∧ c.toNat ≤ 0x5A then Char.ofNat (c.toNat + 32) else c

/-- Rust str::eq_ignore_ascii_case. -/
def asciiCiEq (a b : List Char) : Bool :=
  a.length == b.length && (List.zip a b).all (fun p => asciiLower p.1 == asciiLower p.2)

/-- Unicode white-space test, as Rust char::is_whitespace (White_Space property). -/
def isUniWs (c : Char) : Bool :=
  c.toNat ∈ [0x09, 0x0A, 0x0B, 0x0C, 0x0D, 0x20, 0x85, 0xA0, 0x1680,
    0x2000, 0x2001, 0x2002, 0x2003, 0x2004, 0x2005, 0x2006, 0x2007, 0x2008,
    0x2009, 0x200A, 0x2028, 0x2029, 0x202F, 0x205F, 0x3000]

/-- ASCII white-space test for bytes, as Rust u8::is_ascii_whitespace. -/
def isAsciiWsByte (b : Nat) : Bool :=
  b ∈ [0x20, 0x09, 0x0A, 0x0C, 0x0D]

/-- The usize modulus: all wrapping usize arithmetic is taken modulo 2^64. -/
def usizeMod : Nat := 2 ^ 64

/-- The ParseException enum (wicket-util fully_buffered_reader.rs plus the
variants constructed by wicket-core xml_pull_parser.rs and xml_tag.rs; the
constructions in those files pin down each variant's fields). -/
inductive ParseException where
  | Find (line_number column_number position : Nat)
  | IoError
  | InvalidChar (position : Nat)
  | TagNotClosed (line column position : Nat)
  | TagEndTextError (line column position : Nat)
  | LastTextError (line column position : Nat)
  | SkipTagNotClosed (line column position : Nat)
  | NoOpenBracketIndexFindingTag (position : Nat)
  | NoOpenBracketIndexSettingLineNo (position : Nat)
  | NoCloseBracketIndex (line column position : Nat)
  | EmptyTag (line column position : Nat)
  | MalformedTag (line column position : Nat)
  | NoSpecialTagText (position : Nat)
  | UnclosedComment (line column position : Nat)
  | AttributeValueUnquotedParseError (line column : Nat)
  | AttributeExists (line column position : Nat) (tag_key tag_value : List Char)
  | XmlEncodingMismatch (bom attrib : List Char)
  | InvalidXmlDeclaration
  | NoDecoder (encoding : List Char)
  | Utf8Error
deriving DecidableEq, Repr

/-- Result of running embedded Rust code: a value, a ParseException carried in
Result::Err, or a panic (out-of-bounds indexing / slicing, debug-mode integer
overflow, unreachable); crash marks the panic outcome. -/
inductive PRes (α : Type) where
  | ok : α → PRes α
  | err : ParseException → PRes α
  | crash : PRes α
deriving DecidableEq, Repr

/-- Monadic sequencing mirroring the Rust question-mark operator. -/
def PRes.bind {α β : Type} : PRes α → (α → PRes β) → PRes β
  | .ok a, f => f a
  | .err e, _ => .err e
  | .crash, _ => .crash

instance : Monad PRes where
  pure := PRes.ok
  bind := PRes.bind

/-- Lift an Option, mapping the missing case to a panic (Rust indexing). -/
def PRes.ofIdx {α : Type} : Option α → PRes α
  | some a => .ok a
  | none => .crash

/-- The FullyBufferedReader state (wicket-util fully_buffered_reader.rs). -/
structure Reader where
  input : List Char
  input_position : Nat
  line_number : Nat
  column_number : Nat
  last_line_count_index : Nat
  position_marker : Nat
deriving DecidableEq, Repr

/-- FullyBufferedReader::new_from_string / Default. -/
def Reader.new_from_string (input : List Char) : Reader :=
  { input := input, input_position := 0, line_number := 1, column_number := 1,
    last_line_count_index := 0, position_marker := 0 }

/-- FullyBufferedReader::size (byte count of the whole input). -/
def Reader.size (r : Reader) : Nat := byteLen r.input

/-- FullyBufferedReader::get_substring: str::get, no panic. -/
def Reader.get_substring (r : Reader) (from_pos to_pos : Nat) : Option (List Char) :=
  byteSlice r.input ⟨from_pos, to_pos⟩

/-- FullyBufferedReader::get_substring_from_position_marker. -/
def Reader.get_substring_from_position_marker (r : Reader) (to_pos : Option Nat) :
    Option (List Char) :=
  match to_pos with
  | none => byteDrop r.input r.position_marker
  | some x =>
    if x < r.position_marker then some []
    else byteSlice r.input ⟨r.position_marker, x⟩

/-- FullyBufferedReader::char_at: input.as_bytes()[pos] as char; panics
out of bounds. -/
def Reader.char_at (r : Reader) (pos : Nat) : PRes Char :=
  PRes.ofIdx (byteAt r.input pos)

/-- FullyBufferedReader::count_lines_to: slices input from the memoized
index to the requested end (a panic when that is not a valid range on
character boundaries) and updates line/column counters; carriage returns
are skipped, newlines reset the column. -/
def Reader.count_lines_to (r : Reader) (e : Nat) : PRes Reader :=
  match byteSlice r.input ⟨r.last_line_count_index, e⟩ with
  | none => .crash
  | some s =>
    let lc := s.foldl
      (fun (p : Nat × Nat) c =>
        if c = '\n' then (p.1 + 1, 1)
        else if c = '\r' then p
        else (p.1, p.2 + 1))
      (r.line_number, r.column_number)
    .ok { r with line_number := lc.1, column_number := lc.2, last_line_count_index := e }

/-- FullyBufferedReader::find_char (from the current position). -/
def Reader.find_char (r : Reader) (ch : Char) : PRes (Option Nat) :=
  match byteDrop r.input r.input_position with
  | none => .crash
  | some t => .ok ((listFindChar t ch).map (· + r.input_position))

/-- FullyBufferedReader::find_char_at. -/
def Reader.find_char_at (r : Reader) (ch : Char) (start_pos : Nat) : PRes (Option Nat) :=
  match byteDrop r.input start_pos with
  | none => .crash
  | some t => .ok ((listFindChar t ch).map (· + start_pos))

/-- FullyBufferedReader::find_str_at. -/
def Reader.find_str_at (r : Reader) (strg : List Char) (start_pos : Nat) : PRes (Option Nat) :=
  match byteDrop r.input start_pos with
  | none => .crash
  | some t => .ok ((listFindStr t strg).map (· + start_pos))

/-- The single-quote character (written by code point to keep sources plain). -/
def squote : Char := Char.ofNat 39

/-- The backslash character. -/
def bslash : Char := Char.ofNat 92

/-- Loop body of FullyBufferedReader::find_out_of_quotes.  The fuel only
bounds the iteration count; it is always called with more fuel than the
byte length of the input, which the loop can never exceed since every
step advances by at least one byte. -/
def foqLoop (ch : Char) (start_pos : Nat) :
    Nat → Nat → Option Char → Option Char → Reader → PRes (Option Nat × Reader)
  | 0, _, _, _, _ => PRes.crash
  | fuel + 1, i, cqc, previous_char, r =>
    if i < byteLen r.input then
      match byteDrop r.input i with
      | none => PRes.crash
      | some t =>
        match t.head? with
        | none => PRes.err (.InvalidChar i)
        | some current_char =>
          let step : PRes (Option Char × Reader) :=
            if cqc.isNone then
              if current_char == squote || current_char == '"' then
                (r.count_lines_to (start_pos + i)).bind
                  (fun r2 => .ok (some current_char, r2))
              else .ok (cqc, r)
            else if cqc == some current_char
                && (match previous_char with | some pc => pc != bslash | none => false) then
              .ok (none, r)
            else .ok (cqc, r)
          step.bind (fun p =>
            if current_char == ch && p.1.isNone then PRes.ok (some i, p.2)
            else foqLoop ch start_pos fuel (i + csize current_char) p.1 (some current_char) p.2)
    else
      if cqc.isSome then
        PRes.err (.Find r.line_number r.column_number start_pos)
      else PRes.ok (none, r)

/-- FullyBufferedReader::find_out_of_quotes: quote-aware forward search.
Note the line counting inside the loop is invoked at start_pos + i even
though i is already an absolute byte index. -/
def Reader.find_out_of_quotes (r : Reader) (ch : Char) (start_pos : Nat)
    (quotation_char : Option Char) : PRes (Option Nat × Reader) :=
  foqLoop ch start_pos (byteLen r.input + 1) start_pos quotation_char none r

/-- Modelled from the spec: FullyBufferedReader::count_lines_in_str is called
by xml_tag.rs and xml_pull_parser.rs but its definition is not under src/.
Per section 4.1 the reader counts lines and columns incrementally, skipping
carriage returns; the repo test expecting line 0 and column 10 for the ten
characters before an unquoted attribute value fixes the zero-based origin. -/
def count_lines_in_str (cs : List Char) : Nat × Nat :=
  cs.foldl
    (fun (p : Nat × Nat) c =>
      if c = '\n' then (p.1 + 1, 0)
      else if c = '\r' then p
      else (p.1, p.2 + 1))
    (0, 0)

/-- TagType (xml_tag.rs): open/close tags carry an optional back-reference
index into the final element sequence. -/
inductive TagType where
  | Close (opener_index : Option Nat)
  | Open (closer_index : Option Nat)
  | OpenClose
deriving DecidableEq, Repr

/-- XmlString (xml_tag.rs): raw source range, filter-modified shared string,
or request-local dynamic string. -/
inductive XmlString where
  | Raw (r : Rng)
  | Modified (s : List Char)
  | Dynamic (s : List Char)
deriving DecidableEq, Repr

/-- XmlString::value: resolve against the source (a Rust slice panic when
the raw range is invalid is modelled by none). -/
def XmlString.value (xs : XmlString) (source : List Char) : Option (List Char) :=
  match xs with
  | .Raw r => byteSlice source r
  | .Modified s => some s
  | .Dynamic s => some s

/-- AttrValue (xml_tag.rs): zero-copy range or owned unescaped string. -/
inductive AttrValue where
  | Raw (r : Rng)
  | Unescaped (s : List Char)
deriving DecidableEq, Repr

/-- XmlAttribute (xml_tag.rs). -/
structure XmlAttribute where
  key_range : Rng
  value : AttrValue
deriving DecidableEq, Repr

/-- XmlTag (xml_tag.rs).  The fields are exactly those the embedded functions
read or write; source is the whole input the tag points into. -/
structure XmlTag where
  source : List Char
  text_range : Rng
  tag_type : TagType
  name_range : XmlString
  namespace_range : Option XmlString
  attributes : List XmlAttribute
  modified : Bool
deriving DecidableEq, Repr

/-- XmlTag Default impl: note the default tag type is Open with a Some(0)
back-reference. -/
def XmlTag.default : XmlTag :=
  { source := [], text_range := ⟨0, 0⟩, tag_type := .Open (some 0),
    name_range := .Raw ⟨0, 0⟩, namespace_range := none,
    attributes := [], modified := false }

/-- XmlTag::with_text. -/
def XmlTag.with_text (source : List Char) (text_range : Rng) (tag_type : TagType) : XmlTag :=
  { XmlTag.default with source := source, text_range := text_range, tag_type := tag_type }

/-- XmlTag::is_close. -/
def XmlTag.is_close (t : XmlTag) : Bool :=
  match t.tag_type with | .Close _ => true | _ => false

/-- XmlTag::is_open. -/
def XmlTag.is_open (t : XmlTag) : Bool :=
  match t.tag_type with | .Open _ => true | _ => false

/-- XmlTag::is_open_close. -/
def XmlTag.is_open_close (t : XmlTag) : Bool :=
  match t.tag_type with | .OpenClose => true | _ => false

/-- XmlTag::text: the source slice over the whole tag range (panic modelled
by none when the range is invalid). -/
def XmlTag.text (t : XmlTag) : Option (List Char) :=
  byteSlice t.source t.text_range

/-- XmlTag::name. -/
def XmlTag.name (t : XmlTag) : Option (List Char) :=
  t.name_range.value t.source

/-- XmlTag::namespace. -/
def XmlTag.namespaceVal (t : XmlTag) : Option (Option (List Char)) :=
  match t.namespace_range with
  | none => some none
  | some xs => (xs.value t.source).map some

/-- XmlTag::pos: text_range.start - 1 on usize.  The subtraction wraps
modulo 2^64 (release builds); debug builds panic on the same inputs. -/
def XmlTag.pos (t : XmlTag) : Nat :=
  (t.text_range.lo + usizeMod - 1) % usizeMod

/-- XmlTag::put_attribute: reject a key equal (same length, same bytes,
case-sensitively) to an existing one, reporting the new attribute's key and
value; otherwise append.  The inner loop over the existing attributes. -/
def putAttributeCheck (src : List Char) (text_lo : Nat) (posV : Nat) (a : XmlAttribute) :
    List XmlAttribute → PRes Unit
  | [] => .ok ()
  | e :: rest =>
    if a.key_range.len = e.key_range.len then
      match byteSlice src a.key_range, byteSlice src e.key_range with
      | some new_key, some existing_key =>
        if new_key = existing_key then
          match byteSlice src ⟨0, text_lo⟩ with
          | none => .crash
          | some headStr =>
            let lc := count_lines_in_str headStr
            match a.value with
            | .Raw r =>
              match byteSlice src r with
              | none => .crash
              | some v => .err (.AttributeExists lc.1 lc.2 posV new_key v)
            | .Unescaped s => .err (.AttributeExists lc.1 lc.2 posV new_key s)
        else putAttributeCheck src text_lo posV a rest
      | _, _ => .crash
    else putAttributeCheck src text_lo posV a rest

/-- XmlTag::put_attribute. -/
def XmlTag.put_attribute (t : XmlTag) (a : XmlAttribute) : PRes XmlTag :=
  (putAttributeCheck t.source t.text_range.lo t.pos a t.attributes).bind
    (fun _ => .ok { t with attributes := t.attributes ++ [a] })

/-- Models the external html_escape::encode_double_quoted_attribute used by
escape_markup (strings.rs): ampersand, angle brackets and double quotes are
replaced by named entities.  No theorem below depends on this branch. -/
def escape_markup (cs : List Char) : List Char :=
  cs.foldr
    (fun c acc =>
      if c = '&' then "&amp;".data ++ acc
      else if c = '<' then "&lt;".data ++ acc
      else if c = '>' then "&gt;".data ++ acc
      else if c = '"' then "&quot;".data ++ acc
      else c :: acc)
    []

/-- One step of entity decoding for the model of decode_html_entities. -/
def decodeEntitiesAux : Nat → List Char → List Char
  | 0, cs => cs
  | _ + 1, [] => []
  | fuel + 1, c :: rest =>
    if c = '&' then
      if "amp;".data.isPrefixOf rest then '&' :: decodeEntitiesAux fuel (rest.drop 4)
      else if "lt;".data.isPrefixOf rest then '<' :: decodeEntitiesAux fuel (rest.drop 3)
      else if "gt;".data.isPrefixOf rest then '>' :: decodeEntitiesAux fuel (rest.drop 3)
      else if "quot;".data.isPrefixOf rest then '"' :: decodeEntitiesAux fuel (rest.drop 5)
      else if "apos;".data.isPrefixOf rest then squote :: decodeEntitiesAux fuel (rest.drop 5)
      else c :: decodeEntitiesAux fuel rest
    else c :: decodeEntitiesAux fuel rest

/-- Models the external html_escape::decode_html_entities used by
unescape_markup (strings.rs): returns none when nothing changed (the
Cow::Borrowed case) and the decoded string otherwise.  Inputs without an
ampersand are never changed; only that behavior is relied on below. -/
def unescape_markup (cs : List Char) : Option (List Char) :=
  let d := decodeEntitiesAux (cs.length + 1) cs
  if d = cs then none else some d

/-- Serialization of the attribute list inside XmlTag::to_xml_string. -/
def attrsToXml (src : List Char) : List XmlAttribute → Option (List Char)
  | [] => some []
  | a :: rest => do
    let key ← byteSlice src a.key_range
    let v ← match a.value with
      | .Raw r => byteSlice src r
      | .Unescaped s => some (escape_markup s)
    let tail ← attrsToXml src rest
    some ([' '] ++ key ++ ['=', '"'] ++ v ++ ['"'] ++ tail)

/-- XmlTag::to_xml_string: re-serialize from the parsed fields (none models
a Rust slice panic on an invalid stored range). -/
def XmlTag.to_xml_string (t : XmlTag) : Option (List Char) := do
  let nm ← t.name
  let nsOpt ← t.namespaceVal
  let attrsPart ← attrsToXml t.source t.attributes
  let nsPart := match nsOpt with
    | some ns => ns ++ [':']
    | none => []
  some (['<'] ++ (if t.is_close then ['/'] else [])
    ++ nsPart ++ nm ++ attrsPart
    ++ (if t.is_open_close then ['/'] else []) ++ ['>'])

/-- XmlTag::to_char_sequence: a modified tag is re-serialized, an unmodified
tag is the original source slice. -/
def XmlTag.to_char_sequence (t : XmlTag) : Option (List Char) :=
  if t.modified then t.to_xml_string else t.text

/-- SkipType (xml_pull_parser.rs): the armed raw-text element name. -/
inductive SkipType where
  | StyleS
  | ScriptS
  | TextS (s : List Char)
  | NoneS
deriving DecidableEq, Repr

/-- The literal style string. -/
def styleStr : List Char := "style".data

/-- The literal script string. -/
def scriptStr : List Char := "script".data

/-- SkipType::len. -/
def SkipType.lenS : SkipType → Nat
  | .StyleS => byteLen styleStr
  | .ScriptS => byteLen scriptStr
  | .TextS s => byteLen s
  | .NoneS => 0

/-- SkipType::get_text. -/
def SkipType.get_text : SkipType → List Char
  | .StyleS => styleStr
  | .ScriptS => scriptStr
  | .TextS s => s
  | .NoneS => []

/-- HttpTagType (xml_pull_parser.rs). -/
inductive HttpTagType where
  | NotInitialized
  | Tag
  | Body
  | Comment
  | ConditionalComment
  | ConditionalCommentEndif
  | Cdata
  | ProcessingInstruction
  | Doctype
  | Special
deriving DecidableEq, Repr

/-- The XmlPullParser state (xml_pull_parser.rs). -/
structure PState where
  encoding : List Char
  input : Reader
  skip_until_text : SkipType
  last_type : HttpTagType
  last_text_range : Rng
  last_tag : Option XmlTag
  doc_type_range : Rng
deriving DecidableEq, Repr

/-- XmlPullParser::new (over pre-decoded text). -/
def XmlPullParser.new (s : List Char) : PState :=
  { encoding := "utf8".data, input := Reader.new_from_string s,
    skip_until_text := .NoneS, last_type := .NotInitialized,
    last_text_range := ⟨0, 0⟩, last_tag := none, doc_type_range := ⟨0, 0⟩ }

/-- AttributeRange (xml_pull_parser.rs): ranges relative to the scanned
content slice. -/
structure AttributeRange where
  key_range : Rng
  value_range : Rng
deriving DecidableEq, Repr

/-- Cursor advance over the byte array while the predicate holds
(the inner while loops of find_attribute_pairs). -/
def advWhile (bytes : List Nat) (cursor : Nat) (p : Nat → Bool) : Nat :=
  cursor + ((bytes.drop cursor).takeWhile p).length

/-- The AttributeValueUnquoted error construction inside find_attribute_pairs:
line/column counted over the original content up to the cursor. -/
def fapError (cs : List Char) (cpLo cursor : Nat) : PRes (List AttributeRange) :=
  match byteSlice cs ⟨0, cpLo + cursor⟩ with
  | none => .crash
  | some pre =>
    let lc := count_lines_in_str pre
    .err (.AttributeValueUnquotedParseError lc.1 lc.2)

/-- The while loop of XmlPullParser::find_attribute_pairs.  The
finding_open_quote / finding_close_quote flags are declared outside the
Rust loop but any iteration that leaves one set returns an error at its own
end, so they are always false when an iteration starts; they are therefore
modelled as iteration-local.  The fuel only bounds the iteration count and
is always sufficient, as the cursor strictly advances. -/
def fapLoop (cs : List Char) (cpLo : Nat) (bytes : List Nat) :
    Nat → Nat → List AttributeRange → PRes (List AttributeRange)
  | 0, _, _ => PRes.crash
  | fuel + 1, cursor0, pairs =>
    if cursor0 < bytes.length then
      let cursor1 := advWhile bytes cursor0 isAsciiWsByte
      match bytes[cursor1]? with
      | none => PRes.ok pairs
      | some b1 =>
        if b1 == 47 || b1 == 62 then PRes.ok pairs
        else
          let key_start := cursor1
          let cursor2 := advWhile bytes cursor1 (fun b => !(isAsciiWsByte b) && b != 61)
          let key_range : Rng := ⟨key_start, cursor2⟩
          let cursor3 := advWhile bytes cursor2 isAsciiWsByte
          if bytes[cursor3]? == some 61 then
            let cursor4 := cursor3 + 1
            let cursor5 := advWhile bytes cursor4 isAsciiWsByte
            match bytes[cursor5]? with
            | some q =>
              if q == 34 || q == 39 then
                let cursor6 := cursor5 + 1
                let val_start := cursor6
                let cursor7 := advWhile bytes cursor6 (fun b => b != q)
                match bytes[cursor7]? with
                | none => PRes.crash
                | some bq =>
                  let value_range : Rng := ⟨val_start, cursor7⟩
                  let cursor8 := if cursor7 < bytes.length then cursor7 + 1 else cursor7
                  let pairs2 := pairs ++ [⟨key_range, value_range⟩]
                  if bq == q then fapLoop cs cpLo bytes fuel cursor8 pairs2
                  else fapError cs cpLo cursor8
              else fapError cs cpLo cursor5
            | none => fapError cs cpLo cursor5
          else
            fapLoop cs cpLo bytes fuel cursor3 (pairs ++ [⟨key_range, ⟨0, 0⟩⟩])
    else PRes.ok pairs

/-- XmlPullParser::find_attribute_pairs. -/
def find_attribute_pairs (cs : List Char) (content_position : Rng) :
    PRes (List AttributeRange) :=
  match byteSlice cs content_position with
  | none => .crash
  | some slice =>
    let bytes := toBytes slice
    fapLoop cs content_position.lo bytes (bytes.length + 1) 0 []

/-- XmlPullParser::parse_tag_name. -/
def parse_tag_name (input : List Char) (tag_inner : Rng) : PRes (Rng × Option Rng) :=
  match byteSlice input tag_inner with
  | none => .crash
  | some content =>
    let name_end :=
      (listFindPred content (fun c => isUniWs c || c == '/' || c == '>')).getD (byteLen content)
    match byteTake content name_end with
    | none => .crash
    | some full_name =>
      match listFindChar full_name ':' with
      | some colon_pos =>
        .ok (⟨tag_inner.lo + colon_pos + 1, tag_inner.lo + name_end⟩,
          some ⟨tag_inner.lo, tag_inner.lo + colon_pos⟩)
      | none => .ok (⟨tag_inner.lo, tag_inner.lo + name_end⟩, none)

/-- The per-attribute body of the loop in XmlPullParser::parse_tag_text:
make ranges absolute, unescape, store zero-copy or owned, put_attribute. -/
def foldAttrs (input : List Char) (attrib_start : Nat) :
    XmlTag → List AttributeRange → PRes XmlTag
  | t, [] => PRes.ok t
  | t, ar :: rest =>
    match byteSlice input ⟨attrib_start + ar.value_range.lo, attrib_start + ar.value_range.hi⟩ with
    | none => PRes.crash
    | some value =>
      (t.put_attribute
        ⟨⟨attrib_start + ar.key_range.lo, attrib_start + ar.key_range.hi⟩,
          match unescape_markup value with
          | none => AttrValue.Raw ⟨attrib_start + ar.value_range.lo, attrib_start + ar.value_range.hi⟩
          | some s => AttrValue.Unescaped s⟩).bind
        (fun t2 => foldAttrs input attrib_start t2 rest)

/-- XmlPullParser::parse_tag_text. -/
def parse_tag_text (input : List Char) (tag : XmlTag) (tag_text_range : Rng) :
    PRes (Bool × XmlTag) :=
  (parse_tag_name input tag_text_range).bind (fun nn =>
    let name := nn.1
    if ¬ name.isEmptyR then
      let tag1 := ({ tag with
                     name_range := (XmlString.Raw name),
                     namespace_range := (nn.2.map XmlString.Raw) })
      if name.hi = tag_text_range.hi then .ok (true, tag1)
      else
        let attrib_start := name.hi
        (find_attribute_pairs input ⟨attrib_start, tag_text_range.hi⟩).bind (fun attrib_list =>
          (foldAttrs input attrib_start tag1 attrib_list).bind (fun tag2 => .ok (true, tag2)))
    else .ok (true, tag))

/-- The candidate-search loop of XmlPullParser::skip_until: find successive
occurrences of the closing-tag opener and compare the following name
case-insensitively; note last_pos accumulates pos + 2 on every iteration.
The fuel bounds iterations; the found position strictly increases so the
supplied fuel is always sufficient. -/
def skipUntilLoop (r : Reader) (tag_name_len start_index : Nat) (skipText : List Char) :
    Nat → Nat → Nat → PRes (Nat × Nat)
  | 0, _, _ => PRes.crash
  | fuel + 1, pos, last_pos =>
    (r.find_str_at "</".data (pos + 1)).bind (fun posOpt =>
      match posOpt with
      | none => .err (.TagNotClosed r.line_number r.column_number start_index)
      | some pos2 =>
        if r.size ≤ pos2 + tag_name_len + 2 then
          .err (.TagNotClosed r.line_number r.column_number start_index)
        else
          let last_pos2 := last_pos + pos2 + 2
          match r.get_substring last_pos2 (last_pos2 + tag_name_len) with
          | none => .err (.TagEndTextError r.line_number r.column_number start_index)
          | some end_tag_text =>
            if asciiCiEq skipText end_tag_text then .ok (pos2, last_pos2)
            else skipUntilLoop r tag_name_len start_index skipText fuel pos2 last_pos2)

/-- XmlPullParser::skip_until. -/
def skip_until (st : PState) : PRes PState :=
  let r := st.input
  let start_index := r.input_position
  let tag_name_len := st.skip_until_text.lenS
  let pos0 := r.input_position - 1
  (skipUntilLoop r tag_name_len start_index st.skip_until_text.get_text
      (r.size + 2) pos0 0).bind (fun pl =>
    let r2 := ({ r with input_position := pl.1 })
    if start_index > pl.1 then
      .err (.LastTextError r2.line_number r2.column_number start_index)
    else
      (r2.find_char_at '>' (pl.2 + tag_name_len)).bind (fun gtOpt =>
        match gtOpt with
        | none => .err (.SkipTagNotClosed r2.line_number r2.column_number start_index)
        | some _ =>
          .ok ({ st with input := r2, last_type := HttpTagType.Body,
                         skip_until_text := SkipType.NoneS })))

/-- The quote-tracking scan of XmlPullParser::find_char. -/
def findCharQLoop (ch : Char) : List Char → Nat → Option Char → Option Nat
  | [], _, _ => none
  | c :: rest, idx, quote =>
    match quote with
    | some q =>
      if q = c then findCharQLoop ch rest (idx + csize c) none
      else findCharQLoop ch rest (idx + csize c) quote
    | none =>
      if c = '"' ∨ c = squote then findCharQLoop ch rest (idx + csize c) (some c)
      else if c = ch then some idx
      else findCharQLoop ch rest (idx + csize c) none

/-- XmlPullParser::find_char: find a char ignoring text inside quotes;
get_substring_from is not under src/ but, being used with the Rust question
mark in an Option-returning function, resolves out-of-range starts to None. -/
def findCharQ (st : PState) (ch : Char) (start_index : Nat) : Option Nat :=
  match byteDrop st.input.input start_index with
  | none => none
  | some t => (findCharQLoop ch t 0 none).map (· + start_index)

/-- The CDATA scan loop of XmlPullParser::special_tag_handling: advance the
close bracket until the text since the opener ends with two right brackets.
The fuel bounds iterations and is always sufficient. -/
def cdataLoop (st : PState) (open_bracket_index : Nat) :
    Nat → Nat → PRes (Rng × Nat)
  | 0, _ => PRes.crash
  | fuel + 1, pos1 =>
    match findCharQ st '>' pos1 with
    | none =>
      .err (.NoCloseBracketIndex st.input.line_number st.input.column_number
        st.input.input_position)
    | some cbi =>
      let tmp : Rng := ⟨open_bracket_index + 1, cbi⟩
      if tmp.isEmptyR then .err (.NoSpecialTagText (open_bracket_index + 1))
      else
        match byteSlice st.input.input tmp with
        | none => PRes.crash
        | some txt =>
          if "]]".data.isSuffixOf txt then .ok (tmp, cbi)
          else cdataLoop st open_bracket_index fuel (cbi + 1)

/-- XmlPullParser::special_tag_handling.  Note the Doctype branch does not
return: it falls through into the trailing statements that overwrite
last_type with Special. -/
def special_tag_handling (st : PState) (tag_text_range : Rng)
    (open_bracket_index close_bracket_index : Nat) : PRes PState :=
  match byteSlice st.input.input tag_text_range with
  | none => .crash
  | some txt =>
    if "!--".data.isPrefixOf txt then
      if containsSub txt "![endif]--".data then
        .ok ({ st with
               last_type := HttpTagType.ConditionalCommentEndif,
               input := { st.input with input_position := close_bracket_index + 1 } })
      else if "!--[if ".data.isPrefixOf txt ∧ "]".data.isSuffixOf txt then
        (st.input.find_str_at "]-->".data (open_bracket_index + 1)).bind (fun posOpt =>
          match posOpt with
          | none =>
            .err (.UnclosedComment st.input.line_number st.input.column_number
              st.input.input_position)
          | some p =>
            .ok ({ st with
                   last_text_range := ⟨open_bracket_index, p + 4⟩,
                   input := { st.input with input_position := close_bracket_index + 1 },
                   last_type := HttpTagType.ConditionalComment }))
      else
        (st.input.find_str_at "-->".data (open_bracket_index + 1)).bind (fun posOpt =>
          match posOpt with
          | none =>
            .err (.UnclosedComment st.input.line_number st.input.column_number
              st.input.input_position)
          | some p =>
            .ok ({ st with
                   last_text_range := ⟨open_bracket_index, p + 3⟩,
                   last_type := HttpTagType.Comment,
                   input := { st.input with input_position := p + 3 } }))
    else if asciiCiEq txt "![endif]--".data then
      .ok ({ st with
             last_type := HttpTagType.ConditionalCommentEndif,
             input := { st.input with input_position := close_bracket_index + 1 } })
    else if "![CDATA[".data.isPrefixOf txt then
      (cdataLoop st open_bracket_index (st.input.size + 2) open_bracket_index).bind
        (fun tc =>
          .ok ({ st with
                 last_text_range := tc.1,
                 last_type := HttpTagType.Cdata,
                 input := { st.input with input_position := tc.2 + 1 } }))
    else if txt.head? = some '?' then
      .ok ({ st with
             last_type := HttpTagType.ProcessingInstruction,
             input := { st.input with input_position := close_bracket_index + 1 } })
    else
      let st1 :=
        if "!DOCTYPE".data.isPrefixOf txt then
          ({ st with
             last_type := HttpTagType.Doctype,
             doc_type_range := ⟨open_bracket_index + 1, close_bracket_index⟩,
             input := { st.input with input_position := close_bracket_index + 1 } })
        else st
      .ok ({ st1 with
             last_type := HttpTagType.Special,
             input := { st1.input with input_position := close_bracket_index + 1 } })

/-- The close-bracket search of next_iteration: the next plain bracket for
bang/question tags, the quote-aware search otherwise; the bracket stays
undetermined when the opener is the last byte. -/
def closeSearch (r : Reader) (open_i : Nat) : PRes (Option Nat × Reader) :=
  if open_i < r.size - 1 then
    (r.char_at (open_i + 1)).bind (fun next_char =>
      if next_char = '!' ∨ next_char = '?' then
        (r.find_char_at '>' open_i).bind (fun o => .ok (o, r))
      else
        r.find_out_of_quotes '>' open_i none)
  else .ok (none, r)

/-- The raw-text arming check of next_iteration: on an open tag whose inner
text is longer than the style literal and starts (case-insensitively) with
the letter s, compare the first six input bytes with script and the first
five with style, arming the corresponding skip. -/
def armCheck (r : Reader) (tag_range : Rng) (skip : SkipType) : PRes SkipType :=
  if byteLen styleStr < tag_range.len then
    match byteSlice r.input ⟨tag_range.lo, tag_range.lo + 1⟩ with
    | none => .crash
    | some s1 =>
      if asciiCiEq s1 "s".data then
        match byteSlice r.input ⟨tag_range.lo, tag_range.lo + byteLen scriptStr⟩ with
        | none => .crash
        | some s6 =>
          if asciiCiEq s6 scriptStr then .ok SkipType.ScriptS
          else
            match byteSlice r.input ⟨tag_range.lo, tag_range.lo + byteLen styleStr⟩ with
            | none => .crash
            | some s5 =>
              if asciiCiEq s5 styleStr then .ok SkipType.StyleS else .ok skip
      else .ok skip
  else .ok skip

/-- XmlPullParser::next_iteration: emit one token. -/
def next_iteration (st : PState) : PRes (HttpTagType × PState) :=
  if st.input.input_position = st.input.size then .ok (HttpTagType.NotInitialized, st)
  else if st.skip_until_text ≠ SkipType.NoneS then
    (skip_until st).bind (fun st2 => .ok (st2.last_type, st2))
  else
    (st.input.find_char '<').bind (fun open_bracket_index =>
    (st.input.char_at st.input.input_position).bind (fun c0 =>
    if c0 ≠ '<' then
      match open_bracket_index with
      | none =>
        .ok (HttpTagType.Body,
          ({ st with input := { st.input with input_position := st.input.size },
                     last_type := HttpTagType.Body }))
      | some x =>
        .ok (HttpTagType.Body,
          ({ st with input := { st.input with input_position := x },
                     last_type := HttpTagType.Body }))
    else
      match open_bracket_index with
      | none => .err (.NoOpenBracketIndexSettingLineNo st.input.input_position)
      | some open_i =>
        (st.input.count_lines_to open_i).bind (fun r1 =>
        (closeSearch r1 open_i).bind (fun cb =>
        match cb.1 with
        | none =>
          .err (.NoCloseBracketIndex cb.2.line_number cb.2.column_number
            cb.2.input_position)
        | some close_i =>
          let r2 := cb.2
          let last_text_range : Rng := ⟨open_i, close_i + 1⟩
          let tag_range0 : Rng := ⟨open_i + 1, close_i⟩
          if tag_range0.isEmptyR then
            .err (.EmptyTag r2.line_number r2.column_number r2.input_position)
          else
            match byteSlice r2.input tag_range0 with
            | none => .crash
            | some inner =>
              let cls : TagType × Rng :=
                if "/".data.isSuffixOf inner then
                  (TagType.OpenClose, ⟨tag_range0.lo, tag_range0.hi - 1⟩)
                else if "/".data.isPrefixOf inner then
                  (TagType.Close none, ⟨tag_range0.lo + 1, tag_range0.hi⟩)
                else (TagType.Open none, tag_range0)
              let armRes : PRes SkipType :=
                match cls.1 with
                | TagType.Open _ => armCheck r2 cls.2 st.skip_until_text
                | _ => .ok st.skip_until_text
              armRes.bind (fun skip2 =>
              let stA := ({ st with input := r2,
                                    last_text_range := last_text_range,
                                    skip_until_text := skip2 })
              match byteSlice r2.input cls.2 with
              | none => .crash
              | some innerStripped =>
                if innerStripped.head? = some '!' ∨ innerStripped.head? = some '?' then
                  (special_tag_handling stA cls.2 open_i close_i).bind (fun stB =>
                    let tg := XmlTag.with_text stB.input.input stB.last_text_range cls.1
                    .ok (stB.last_type, ({ stB with last_tag := some tg })))
                else
                  let tmp := XmlTag.with_text r2.input last_text_range cls.1
                  (parse_tag_text r2.input tmp cls.2).bind (fun bt =>
                    if bt.1 then
                      .ok (HttpTagType.Tag,
                        ({ stA with
                           input := { r2 with input_position := close_i + 1 },
                           last_type := HttpTagType.Tag,
                           last_tag := some bt.2 }))
                    else
                      .err (.MalformedTag r2.line_number r2.column_number
                        r2.input_position)))))))

/-- ComponentTag (markup_element.rs).  The fields the embedded code reads:
the open-tag back pointer, the xml tag, the bitflags byte, and the id.
The external-collaborator fields (markup_ref, behaviors, user_data) are
never read by any embedded function and are omitted. -/
inductive ComponentTag where
  | mk : Option ComponentTag → XmlTag → Nat → List Char → ComponentTag

/-- ComponentTag::open_tag. -/
def ComponentTag.open_tag : ComponentTag → Option ComponentTag
  | .mk o _ _ _ => o

/-- ComponentTag::tag. -/
def ComponentTag.tag : ComponentTag → XmlTag
  | .mk _ t _ _ => t

/-- ComponentTag::flags (bitflags byte). -/
def ComponentTag.flags : ComponentTag → Nat
  | .mk _ _ f _ => f

/-- ComponentTag::id. -/
def ComponentTag.idStr : ComponentTag → List Char
  | .mk _ _ _ i => i

/-- The MODIFIED bit of ComponentTagFlags. -/
def MODIFIED_FLAG : Nat := 2

/-- ComponentTag::from_xml_tag: default flags NONE, empty id, no open tag. -/
def ComponentTag.from_xml_tag (t : XmlTag) : ComponentTag :=
  .mk none t 0 []

/-- ComponentTag::is_modified as written in markup_element.rs: the
intersection of the flags with MODIFIED, tested with bitflags is_empty —
it is therefore true exactly when the MODIFIED bit is NOT set, although
its doc comment promises the opposite. -/
def ComponentTag.is_modified (ct : ComponentTag) : Bool :=
  Nat.land ct.flags MODIFIED_FLAG == 0

/-- MarkupElement (markup_element.rs); the RawMarkup payload is its
text_range. -/
inductive MarkupElement where
  | RawMarkup (text_range : Rng)
  | ComponentTag (ct : ComponentTag)
  | SpecialTag (tag : XmlTag)

/-- FilterResult (filter.rs). -/
inductive FilterResult where
  | Keep (e : MarkupElement)
  | Drop
  | Replace (l : List MarkupElement)

/-- A markup filter: the process method of a MarkupFilter trait object as
invoked by markup_parser.rs (an element in, a FilterResult out). -/
def MFilter : Type := MarkupElement → FilterResult

/-- The for-loop over the filter chain inside MarkupParser::get_next_tag:
Keep feeds the next filter, Drop (and an empty Replace) aborts the element,
a non-empty Replace continues with its first item through the remaining
filters and appends the rest to the parser queue; note the appended items
stay queued even when a later filter drops the current item. -/
def runFilterChain : List MFilter → MarkupElement → List MarkupElement →
    Option MarkupElement × List MarkupElement
  | [], cur, adds => (some cur, adds)
  | f :: fs, cur, adds =>
    match f cur with
    | .Keep e => runFilterChain fs e adds
    | .Drop => (none, adds)
    | .Replace [] => (none, adds)
    | .Replace (x :: xs) => runFilterChain fs x (adds ++ xs)

/-- The MarkupParser state: the xml parser and the pending-element queue
(markup_parser.rs; the filter chain is passed explicitly, and the unused
markup/settings fields are omitted). -/
structure MPState where
  xmlp : PState
  queue : List MarkupElement

/-- MarkupParser::new. -/
def MarkupParser.new (input : List Char) : MPState :=
  { xmlp := XmlPullParser.new input, queue := [] }

/-- The outer loop of MarkupParser::get_next_tag: pull one token, skip Body
tokens, wrap the tag as an element, run the filter chain; on Drop pull a
fresh token.  The fuel bounds loop iterations only. -/
def getNextTagLoop (filters : List MFilter) :
    Nat → MPState → PRes (Option MarkupElement × MPState)
  | 0, _ => PRes.crash
  | fuel + 1, st =>
    (next_iteration st.xmlp).bind (fun p =>
      match p.1 with
      | HttpTagType.NotInitialized => .ok (none, { st with xmlp := p.2 })
      | HttpTagType.Body => getNextTagLoop filters fuel { st with xmlp := p.2 }
      | tt =>
        match p.2.last_tag with
        | none => PRes.crash
        | some xt =>
          let xst := ({ p.2 with last_tag := none })
          let elem : MarkupElement :=
            if tt = HttpTagType.Tag then .ComponentTag (ComponentTag.from_xml_tag xt)
            else .SpecialTag xt
          match runFilterChain filters elem [] with
          | (some out, adds) => .ok (some out, { xmlp := xst, queue := st.queue ++ adds })
          | (none, adds) =>
            getNextTagLoop filters fuel { xmlp := xst, queue := st.queue ++ adds })

/-- MarkupParser::get_next_tag: a queued element (buffered by an earlier
Replace) is dequeued and returned as is; otherwise the pull loop runs. -/
def get_next_tag (filters : List MFilter) (fuel : Nat) (st : MPState) :
    PRes (Option MarkupElement × MPState) :=
  match st.queue with
  | e :: rest => .ok (some e, { st with queue := rest })
  | [] => getNextTagLoop filters fuel st

/-- Modelled from the spec: XmlPullParser::get_range_from_position_marker is
called by markup_parser.rs but is not under src/.  Per section 4.6 it is the
gap range from the position marker (the end of the previously accepted
element, or document start) to the given position, mirroring the reader's
get_substring_from_position_marker. -/
def get_range_from_position_marker (r : Reader) (to_pos : Nat) : Rng :=
  ⟨r.position_marker, to_pos⟩

/-- The gap-append step of MarkupParser::parse_markup: extend an immediately
preceding RawMarkup element when byte-contiguous, else push a new one. -/
def pushGap (markup : List MarkupElement) (text_range : Rng) : List MarkupElement :=
  match markup.getLast? with
  | some (.RawMarkup last) =>
    if last.hi = text_range.lo then
      markup.dropLast ++ [.RawMarkup ⟨last.lo, text_range.hi⟩]
    else markup ++ [.RawMarkup text_range]
  | _ => markup ++ [.RawMarkup text_range]

/-- MarkupParser::parse_markup: pull filtered elements until exhaustion; a
tag is appended when its id is non-empty, when it is a close tag whose open
tag carries a non-empty id, or when is_modified() holds; before appending,
the gap from the position marker is appended as raw markup.  The first fuel
feeds get_next_tag, the second bounds this loop. -/
def parse_markup (filters : List MFilter) (innerFuel : Nat) :
    Nat → MPState → List MarkupElement → PRes (List MarkupElement × MPState)
  | 0, _, _ => PRes.crash
  | fuel + 1, st, markup =>
    (get_next_tag filters innerFuel st).bind (fun r =>
      match r.1 with
      | none => .ok (markup, r.2)
      | some (.RawMarkup _) => PRes.crash
      | some elem =>
        let tag : ComponentTag :=
          match elem with
          | .ComponentTag ct => ct
          | .SpecialTag s => ComponentTag.from_xml_tag s
          | .RawMarkup _ => ComponentTag.from_xml_tag XmlTag.default
        let st2 := r.2
        let add0 := !tag.idStr.isEmpty
        let add :=
          if !add0 && tag.tag.is_close then
            (match tag.open_tag with
             | some o => !o.idStr.isEmpty
             | none => false)
          else add0
        if add || tag.is_modified then
          let text_range := get_range_from_position_marker st2.xmlp.input tag.tag.pos
          let markup2 :=
            if ¬ text_range.isEmptyR then pushGap markup text_range else markup
          let st3 :=
            ({ st2 with xmlp := { st2.xmlp with input :=
              { st2.xmlp.input with position_marker := st2.xmlp.input.input_position } } })
          parse_markup filters innerFuel fuel st3 (markup2 ++ [.ComponentTag tag])
        else parse_markup filters innerFuel fuel st2 markup)

/-- An observed token: the returned token type enriched with the tag name
and kind for Tag tokens and the covered text for Body tokens.  This is an
observation harness over next_iteration, not embedded source code. -/
inductive Tok where
  | TOpen (nm : List Char)
  | TClose (nm : List Char)
  | TOpenCloseTag (nm : List Char)
  | TBody (s : List Char)
  | TComment
  | TCondComment
  | TCondCommentEndif
  | TCdata
  | TPI
  | TDoctype
  | TSpecial
deriving DecidableEq, Repr

/-- Observe one emitted token given the states before and after the call. -/
def obsTok (tt : HttpTagType) (stB stA : PState) : PRes Tok :=
  match tt with
  | .Tag =>
    match stA.last_tag with
    | some t =>
      match t.name with
      | some nm =>
        .ok (match t.tag_type with
          | .Open _ => .TOpen nm
          | .Close _ => .TClose nm
          | .OpenClose => .TOpenCloseTag nm)
      | none => PRes.crash
    | none => PRes.crash
  | .Body =>
    match byteSlice stB.input.input ⟨stB.input.input_position, stA.input.input_position⟩ with
    | some s => .ok (.TBody s)
    | none => PRes.crash
  | .Comment => .ok .TComment
  | .ConditionalComment => .ok .TCondComment
  | .ConditionalCommentEndif => .ok .TCondCommentEndif
  | .Cdata => .ok .TCdata
  | .ProcessingInstruction => .ok .TPI
  | .Doctype => .ok .TDoctype
  | .Special => .ok .TSpecial
  | .NotInitialized => PRes.crash

/-- Tokenize by repeated next_iteration calls until NotInitialized;
an observation harness, with fuel bounding the number of calls. -/
def tokenize : Nat → PState → PRes (List Tok)
  | 0, _ => PRes.crash
  | fuel + 1, st =>
    (next_iteration st).bind (fun p =>
      if p.1 = HttpTagType.NotInitialized then .ok []
      else
        (obsTok p.1 st p.2).bind (fun tk =>
          (tokenize fuel p.2).bind (fun rest => .ok (tk :: rest))))

/-- Strict UTF-8 validation and decoding of a byte sequence, as Rust
str::from_utf8 (rejecting overlong forms, surrogates and values beyond
U+10FFFF).  The fuel only bounds the number of decoded characters and is
always sufficient at one unit per input byte plus one. -/
def utf8DecodeAux : Nat → List Nat → Option (List Char)
  | 0, _ => none
  | _ + 1, [] => some []
  | fuel + 1, b :: rest =>
    if b < 0x80 then (utf8DecodeAux fuel rest).map (fun cs => Char.ofNat b :: cs)
    else if b < 0xC2 then none
    else if b < 0xE0 then
      match rest with
      | b1 :: rest2 =>
        if 0x80 ≤ b1 ∧ b1 < 0xC0 then
          (utf8DecodeAux fuel rest2).map
            (fun cs => Char.ofNat ((b - 0xC0) * 64 + (b1 - 0x80)) :: cs)
        else none
      | [] => none
    else if b < 0xF0 then
      match rest with
      | b1 :: b2 :: rest3 =>
        if (if b = 0xE0 then 0xA0 else 0x80) ≤ b1 ∧ b1 < (if b = 0xED then 0xA0 else 0xC0) ∧
            0x80 ≤ b2 ∧ b2 < 0xC0 then
          (utf8DecodeAux fuel rest3).map
            (fun cs => Char.ofNat ((b - 0xE0) * 4096 + (b1 - 0x80) * 64 + (b2 - 0x80)) :: cs)
        else none
      | _ => none
    else if b < 0xF5 then
      match rest with
      | b1 :: b2 :: b3 :: rest4 =>
        if (if b = 0xF0 then 0x90 else 0x80) ≤ b1 ∧ b1 < (if b = 0xF4 then 0x90 else 0xC0) ∧
            0x80 ≤ b2 ∧ b2 < 0xC0 ∧ 0x80 ≤ b3 ∧ b3 < 0xC0 then
          (utf8DecodeAux fuel rest4).map
            (fun cs => Char.ofNat
              ((b - 0xF0) * 262144 + (b1 - 0x80) * 4096 + (b2 - 0x80) * 64 + (b3 - 0x80)) :: cs)
        else none
      | _ => none
    else none

/-- Rust str::from_utf8 over a byte list. -/
def utf8DecodeBytes (l : List Nat) : Option (List Char) :=
  utf8DecodeAux (l.length + 1) l

/-- The byte-order-mark detection of determine_encoding, in source order:
4-byte UTF-32 marks, the 3-byte UTF-8 mark, then 2-byte UTF-16 marks. -/
def bomDetect (buf : List Nat) : List Char × Nat :=
  match buf with
  | 0xFF :: 0xFE :: 0x00 :: 0x00 :: _ => ("utf-32le".data, 4)
  | 0x00 :: 0x00 :: 0xFE :: 0xFF :: _ => ("utf-32be".data, 4)
  | 0xEF :: 0xBB :: 0xBF :: _ => ("utf-8".data, 3)
  | 0xFE :: 0xFF :: _ => ("utf-16be".data, 2)
  | 0xFF :: 0xFE :: _ => ("utf-16le".data, 2)
  | _ => ("utf-8".data, 0)

/-- Count of leading regex white-space characters (the \s class of the
external regex crate, i.e. Unicode White_Space). -/
def leadingWsRe (cs : List Char) : Nat := (cs.takeWhile isUniWs).length

/-- Rightmost position of a question-mark/bracket pair reachable by the
regex dot (which cannot cross a newline): the greedy backtracking of a
trailing dot-star before the literal terminator. -/
def findLastQm : List Char → Option Nat
  | [] => none
  | c :: rest =>
    let tailRes := if c = '\n' then none else (findLastQm rest).map (· + 1)
    match tailRes with
    | some j => some j
    | none => if c = '?' ∧ rest.head? = some '>' then some 0 else none

/-- Backtracking over the greedy one-or-more white-space group of the
XML_DECL regex: try the maximal run first, then shorter ones. -/
def xmlDeclTryK (rest : List Char) : Nat → Option Nat
  | 0 => none
  | k + 1 =>
    match findLastQm (rest.drop (k + 1)) with
    | some j => some (k + 1 + j + 2)
    | none => xmlDeclTryK rest k

/-- Embeds the XML_DECL regex of metapattern core.rs (anchored: literal
xml-declaration opener, an optional group of white-space followed by any
non-newline run, then the closing marker) under the leftmost-first
semantics of the external regex crate; returns the matched prefix. -/
def xmlDeclMatch (cs : List Char) : Option (List Char) :=
  if cs.take 5 = "<?xml".data then
    let rest := cs.drop 5
    match xmlDeclTryK rest (leadingWsRe rest) with
    | some l => some (cs.take (5 + l))
    | none => if rest.take 2 = "?>".data then some (cs.take 7) else none
  else none

/-- Whether a question-mark/bracket terminator occurs before any newline. -/
def hasQmNoNl (cs : List Char) : Bool :=
  containsSub (cs.takeWhile (fun c => c ≠ '\n')) "?>".data

/-- Backtracking shrink of the greedy non-white-space star in the unquoted
alternative of the XML_ENCODING regex: the longest prefix after which the
trailing dot-star and terminator still match. -/
def shrinkS (cs : List Char) : Nat → Option Nat
  | 0 => if hasQmNoNl cs then some 0 else none
  | l + 1 => if hasQmNoNl (cs.drop (l + 1)) then some (l + 1) else shrinkS cs l

/-- The unquoted alternative of the XML_ENCODING regex at a fixed position:
a possibly empty greedy non-white-space run (capture group three), then any
non-newline run and the terminator. -/
def xmlEncUnquoted (r5 : List Char) : Option (List Char) :=
  let m := (r5.takeWhile (fun c => !isUniWs c)).length
  (shrinkS r5 m).map (fun l => r5.take l)

/-- The lazy quoted-content group of the XML_ENCODING regex: expand the
minimal match to successive closing quote-class characters until the
trailing dot-star and terminator match; the dot cannot cross a newline. -/
def lazyQuotedAux : Nat → List Char → List Char → Option (List Char)
  | 0, _, _ => none
  | fuel + 1, acc, rest =>
    let content := rest.takeWhile (fun c => !(c == '"' || c == squote || c == '\n'))
    match (rest.drop content.length).head? with
    | some stopc =>
      if stopc = '\n' then none
      else
        let acc2 := acc ++ content
        let after := rest.drop (content.length + 1)
        if hasQmNoNl after then some acc2
        else lazyQuotedAux fuel (acc2 ++ [stopc]) after
    | none => none

/-- Match attempt of the XML_ENCODING regex at one start position: one or
more white-space, the literal encoding key, optional white-space around the
equals sign, then the quoted alternative (group two) or the unquoted one
(group three); returns the capture the caller reads (group two or else
group three). -/
def xmlEncAt (cs : List Char) : Option (List Char) :=
  let w := leadingWsRe cs
  if w = 0 then none
  else
    let r1 := cs.drop w
    if r1.take 8 = "encoding".data then
      let r2 := r1.drop 8
      let r3 := r2.drop (leadingWsRe r2)
      if r3.head? = some '=' then
        let r4 := r3.drop 1
        let r5 := r4.drop (leadingWsRe r4)
        match r5.head? with
        | some q =>
          if q = '"' ∨ q = squote then
            match lazyQuotedAux (r5.length + 1) [] (r5.drop 1) with
            | some content => some content
            | none => xmlEncUnquoted r5
          else xmlEncUnquoted r5
        | none => xmlEncUnquoted r5
      else none
    else none

/-- Embeds the XML_ENCODING regex of metapattern core.rs: scan start
positions left to right and return the first successful match's capture. -/
def xmlEncodingCapture : List Char → Option (List Char)
  | [] => none
  | c :: rest =>
    match xmlEncAt (c :: rest) with
    | some cap => some cap
    | none => xmlEncodingCapture rest

/-- EncodingResult (xml_pull_parser.rs). -/
structure EncodingResult where
  encoding : List Char
  bom_len : Nat
deriving DecidableEq, Repr

/-- determine_encoding (xml_pull_parser.rs): inputs shorter than four bytes
resolve to UTF-8; otherwise detect a BOM over the first eighty bytes, then
require an anchored xml declaration after the BOM and reconcile its
encoding value, if any, with the BOM. -/
def determine_encoding (buffer : List Nat) : PRes EncodingResult :=
  let read_ahead := min 80 buffer.length
  if read_ahead < 4 then .ok ⟨"utf-8".data, 0⟩
  else
    let buf := buffer.take read_ahead
    let br := bomDetect buf
    match utf8DecodeBytes (buf.drop br.2) with
    | none => .err .Utf8Error
    | some xml_start =>
      match xmlDeclMatch xml_start with
      | some xml_decl =>
        match xmlEncodingCapture xml_decl with
        | some encoding =>
          if br.2 = 0 then .ok ⟨encoding, 0⟩
          else if asciiCiEq encoding br.1 then .ok ⟨br.1, br.2⟩
          else .err (.XmlEncodingMismatch br.1 encoding)
        | none => .ok ⟨br.1, br.2⟩
      | none => .err .InvalidXmlDeclaration

/-- The encoding-resolution step of XmlPullParser::new_stream: resolve via
determine_encoding, then look the name up in the decoder table of the
external encoding_rs crate (abstracted as the forLabel parameter), failing
with NoDecoder when absent; the subsequent decode is outside this scope. -/
def new_stream_encoding_resolution (forLabel : List Char → Option (List Char))
    (buffer : List Nat) : PRes (List Char) :=
  (determine_encoding buffer).bind (fun res =>
    match forLabel res.encoding with
    | none => .err (.NoDecoder res.encoding)
    | some canonical => .ok canonical)

/-- Result observer: the element a pull returned, when it succeeded. -/
def pulledOf (r : PRes (Option MarkupElement × MPState)) : Option MarkupElement :=
  match r with
  | .ok (some e, _) => some e
  | _ => none

/-- Result observer: the parser state after a successful pull. -/
def stateOf (r : PRes (Option MarkupElement × MPState)) : Option MPState :=
  match r with
  | .ok p => some p.2
  | _ => none

/-- A synthesized element carrying id b, as a filter would create. -/
def elemB : MarkupElement :=
  .ComponentTag (ComponentTag.mk none XmlTag.default 0 "b".data)

/-- A synthesized element carrying id c. -/
def elemC : MarkupElement :=
  .ComponentTag (ComponentTag.mk none XmlTag.default 0 "c".data)

/-- A concrete filter: drops the id-c element, replaces any id-less
component tag (such as one freshly pulled from the tokenizer) by the two
synthesized elements, and keeps everything else. -/
def fC1 : MFilter := fun e =>
  match e with
  | .ComponentTag ct =>
    if ct.idStr = "c".data then .Drop
    else if ct.idStr = [] then .Replace [elemB, elemC]
    else .Keep e
  | _ => .Keep e

/-- The first pull of the C1 scenario: one filter over one open tag. -/
def c1_pull1 : PRes (Option MarkupElement × MPState) :=
  get_next_tag [fC1] 9 (MarkupParser.new "<a>".data)

/-- A filter that always replaces by the two synthesized elements. -/
def fRep : MFilter := fun _ => .Replace [elemB, elemC]

/-- A filter that always replaces by the empty list. -/
def fRepEmpty : MFilter := fun _ => .Replace []

/-- A filter that always drops. -/
def fDrop : MFilter := fun _ => .Drop

/-- Result observer: the element list of a completed parse. -/
def elemsOf (r : PRes (List MarkupElement × MPState)) : Option (List MarkupElement) :=
  match r with
  | .ok p => some p.1
  | _ => none

/-- The xml tag the tokenizer yields for the whole input consisting of one
open tag named tag. -/
def c2xml : XmlTag :=
  { source := "<tag>".data, text_range := ⟨0, 5⟩, tag_type := .Open none,
    name_range := .Raw ⟨1, 4⟩, namespace_range := none,
    attributes := [], modified := false }

/-- The component tag wrapped around it by the pipeline. -/
def c2tag : ComponentTag := ComponentTag.mk none c2xml 0 []

/-- Result observer: the emitted token type of one tokenizer call. -/
def ttOf (r : PRes (HttpTagType × PState)) : Option HttpTagType :=
  match r with
  | .ok p => some p.1
  | _ => none

/-- Result observer: the parser state after one tokenizer call. -/
def stOf (r : PRes (HttpTagType × PState)) : Option PState :=
  match r with
  | .ok p => some p.2
  | _ => none

/-- The spec's script example input. -/
def c3example : List Char :=
  ("<html><script type=" ++ "\u0022module\u0022" ++ ">a < b</script><body></body></html>").data

/-- The value a stored attribute resolves to against the source: the
zero-copy slice for Raw, the owned string for Unescaped. -/
def attrValueResolved (src : List Char) (a : XmlAttribute) : Option (List Char) :=
  match a.value with
  | .Raw r => byteSlice src r
  | .Unescaped s => some s

/-- Two attributes do not clash: the later key is not byte-identical (same
length, same bytes) to the earlier one. -/
def keyNoClash (src : List Char) (x y : XmlAttribute) : Prop :=
  ¬(y.key_range.len = x.key_range.len ∧
    byteSlice src y.key_range = byteSlice src x.key_range)

/-- The duplicate-attribute input of the spec example, built over the
single-quote character. -/
def c6input : List Char :=
  "<tag attr=".data ++ [squote] ++ "1".data ++ [squote]
    ++ " attr=".data ++ [squote] ++ "2".data ++ [squote] ++ ">".data

/-- A two-attribute tag over a tiny source, with a duplicate about to be
inserted. -/
def dupTag : XmlTag :=
  ({ XmlTag.default with
     source := "ab".data,
     text_range := ⟨1, 2⟩,
     attributes := [⟨⟨0, 1⟩, AttrValue.Raw ⟨1, 2⟩⟩] })

/-- The attribute duplicating dupTag's existing key. -/
def dupAttr : XmlAttribute := ⟨⟨0, 1⟩, AttrValue.Raw ⟨1, 2⟩⟩

/-- A fresh tag accepting one attribute. -/
def okTag : XmlTag := XmlTag.with_text "<q/>".data ⟨0, 4⟩ TagType.OpenClose

/-- The attribute inserted into okTag. -/
def okAttr : XmlAttribute := ⟨⟨1, 2⟩, AttrValue.Raw ⟨0, 0⟩⟩

/-- The tag okTag ends up as after the successful insertion. -/
def okTagOut : XmlTag :=
  ({ okTag with attributes := [okAttr] })

/-- The two-attribute input used for the distinctness instantiation. -/
def c6inp2 : List Char := "<x a=\u00221\u0022 b=\u00222\u0022>".data

/-- The conditional-comment opener example of the spec, built over the
single-quote character. -/
def c7input : List Char :=
  "<!--[if IE]><a href=".data ++ [squote] ++ "x".data ++ [squote]
    ++ ">y</a><![endif]-->".data

/-- First tokenizer call on the example. -/
def c7r1 : PRes (HttpTagType × PState) := next_iteration (XmlPullParser.new c7input)

/-- Chained state observer over an optional call result. -/
def stOf2 (x : Option (PRes (HttpTagType × PState))) : Option PState := x.bind stOf

/-- Second call. -/
def c7r2 : Option (PRes (HttpTagType × PState)) := (stOf c7r1).map next_iteration

/-- Third call. -/
def c7r3 : Option (PRes (HttpTagType × PState)) := (stOf2 c7r2).map next_iteration

/-- Fourth call. -/
def c7r4 : Option (PRes (HttpTagType × PState)) := (stOf2 c7r3).map next_iteration

/-- A one-attribute input whose single tag spans the entire source. -/
def c8input : List Char := "<x a=\u00221\u0022>".data

/-- The tag the tokenizer yields for a simple self-closing tag. -/
def c8t : XmlTag :=
  ({ XmlTag.with_text "<tag/>".data ⟨0, 6⟩ TagType.OpenClose with
     name_range := XmlString.Raw ⟨1, 4⟩ })

/-- The C9 input: ten leading bytes, then a quoted attribute whose opening
quote sits at absolute byte 15. -/
def c9input : List Char :=
  "aaaaaaaaaa<a x=".data ++ [squote] ++ "1".data ++ [squote] ++ ">".data

/-- Observer for the found index of a quote-aware search. -/
def foqIdx (r : PRes (Option Nat × Reader)) : Option (Option Nat) :=
  match r with
  | .ok p => some p.1
  | _ => none

/-- The C4 plain input bytes: markup with neither BOM nor xml declaration. -/
def c4plain : List Nat := toBytes "<html><body></body></html>".data

/-- A two-byte input. -/
def c4short : List Nat := toBytes "ab".data

/-- An xml declaration carrying encoding UTF-8, as bytes. -/
def c4declU : List Nat := toBytes "<?xml version=\u00221.0\u0022 encoding=\u0022UTF-8\u0022?>".data

/-- The same declaration preceded by the UTF-8 byte-order mark. -/
def c4bomU : List Nat := [0xEF, 0xBB, 0xBF] ++ c4declU

/-- A BOM with a conflicting declared encoding. -/
def c4bomL : List Nat :=
  [0xEF, 0xBB, 0xBF] ++ toBytes "<?xml version=\u00221.0\u0022 encoding=\u0022latin1\u0022?>".data

/-- A declaration without an encoding value. -/
def c4noenc : List Nat := toBytes "<?xml version=\u00221.0\u0022 ?>".data

/-- C1, counterexample: pulling from one replace-producing filter returns
the first replacement and buffers the second; the next pull returns the
buffered element directly even though the filter chain drops it, so the
buffered element does not pass the chain again, contradicting the claim
that each buffered item is re-run from the first filter. -/
theorem c1_counterexample :
    pulledOf c1_pull1 = some elemB ∧
    (stateOf c1_pull1).map MPState.queue = some [elemC] ∧
    ((stateOf c1_pull1).map (fun st1 => pulledOf (get_next_tag [fC1] 9 st1)))
      = some (some elemC) ∧
    runFilterChain [fC1] elemC [] = (none, []) := by
  exact ⟨rfl, rfl, rfl, rfl⟩

/-- C1, amended: with a non-empty queue a pull dequeues FIFO and returns the
element unchanged without consulting the tokenizer or the filters; a filter
returning Replace with a non-empty list sends the first item through the
remaining filters of the current pass and buffers the rest; Replace with an
empty list aborts the element exactly as Drop does. -/
theorem c1_amended :
    (∀ (fs : List MFilter) (fuel : Nat) (st : MPState) (e : MarkupElement)
        (rest : List MarkupElement), st.queue = e :: rest →
        get_next_tag fs fuel st = .ok (some e, { st with queue := rest })) ∧
    (∀ (f : MFilter) (fs : List MFilter) (e x : MarkupElement)
        (xs adds : List MarkupElement), f e = .Replace (x :: xs) →
        runFilterChain (f :: fs) e adds = runFilterChain fs x (adds ++ xs)) ∧
    (∀ (f : MFilter) (fs : List MFilter) (e : MarkupElement)
        (adds : List MarkupElement), f e = .Replace [] →
        runFilterChain (f :: fs) e adds = (none, adds)) ∧
    (∀ (f : MFilter) (fs : List MFilter) (e : MarkupElement)
        (adds : List MarkupElement), f e = .Drop →
        runFilterChain (f :: fs) e adds = (none, adds)) := by
  refine ⟨?_, ?_, ?_, ?_⟩
  · intro fs fuel st e rest h
    cases st with
    | mk xmlp queue =>
      cases h
      rfl
  · intro f fs e x xs adds h
    simp [runFilterChain, h]
  · intro f fs e adds h
    simp [runFilterChain, h]
  · intro f fs e adds h
    simp [runFilterChain, h]

/-- C1, witness: the amended statement applied at concrete states and
filters. -/
theorem c1_amended_witness :
    get_next_tag [] 0 ⟨XmlPullParser.new [], [elemB]⟩
      = .ok (some elemB, { MPState.mk (XmlPullParser.new []) [elemB] with queue := [] }) ∧
    runFilterChain [fRep] elemC [] = runFilterChain [] elemB ([] ++ [elemC]) ∧
    runFilterChain [fRepEmpty] elemB [] = (none, []) ∧
    runFilterChain [fDrop] elemB [] = (none, []) :=
  ⟨c1_amended.1 [] 0 ⟨XmlPullParser.new [], [elemB]⟩ elemB [] rfl,
   c1_amended.2.1 fRep [] elemC elemB [elemC] [] rfl,
   c1_amended.2.2.1 fRepEmpty [] elemB [] rfl,
   c1_amended.2.2.2 fDrop [] elemB [] rfl⟩

/-- C2: parsing one plain open tag with an empty filter chain appends the
tag to the element sequence even though its id is empty, it is not a close
tag, and its MODIFIED flag was never set — because is_modified() tests the
flag intersection with is_empty and is therefore inverted relative to its
own doc comment; the preceding raw-markup gap also shows the wrapped
position underflow. -/
theorem c2_inclusion_bug :
    elemsOf (parse_markup [] 20 20 (MarkupParser.new "<tag>".data) [])
      = some [.RawMarkup ⟨0, usizeMod - 1⟩, .ComponentTag c2tag] ∧
    c2tag.idStr = [] ∧
    c2tag.tag.is_close = false ∧
    Nat.land c2tag.flags MODIFIED_FLAG = 0 ∧
    c2tag.is_modified = true := by
  exact ⟨rfl, rfl, rfl, rfl, rfl⟩

/-- C3, counterexample: tokenizing a bare style open tag emits an Open tag
whose local name equals style, yet raw-text skipping is NOT armed (the
arming check requires the inner tag text to be strictly longer than the
five-byte style literal), contradicting the claimed equivalence. -/
theorem c3_counterexample :
    ttOf (next_iteration (XmlPullParser.new "<style>x</style>".data)) = some .Tag ∧
    ((stOf (next_iteration (XmlPullParser.new "<style>x</style>".data))).bind
      PState.last_tag).bind XmlTag.name = some "style".data ∧
    ((stOf (next_iteration (XmlPullParser.new "<style>x</style>".data))).bind
      PState.last_tag).map XmlTag.is_open = some true ∧
    (stOf (next_iteration (XmlPullParser.new "<style>x</style>".data))).map
      PState.skip_until_text = some SkipType.NoneS := by
  exact ⟨rfl, rfl, rfl, rfl⟩

/-- C3, amended: arming is a case-insensitive prefix check on the inner tag
text requiring byte length greater than five — a bare style tag does not
arm, while an open tag named styles arms style skipping (prefix match); for
tags longer than the literal the behavior is as described, and the spec's
script example tokenizes exactly as claimed, the inner angle bracket never
starting a tag. -/
theorem c3_amended :
    (stOf (next_iteration (XmlPullParser.new "<style>x</style>".data))).map
      PState.skip_until_text = some SkipType.NoneS ∧
    (stOf (next_iteration (XmlPullParser.new "<styles>y</styles>".data))).map
      PState.skip_until_text = some SkipType.StyleS ∧
    ((stOf (next_iteration (XmlPullParser.new "<styles>y</styles>".data))).bind
      PState.last_tag).bind XmlTag.name = some "styles".data ∧
    (stOf (next_iteration (XmlPullParser.new "<script x=\u0022y\u0022>a</script>".data))).map
      PState.skip_until_text = some SkipType.ScriptS ∧
    tokenize 20 (XmlPullParser.new c3example)
      = .ok [.TOpen "html".data, .TOpen "script".data, .TBody "a < b".data,
             .TClose "script".data, .TOpen "body".data, .TClose "body".data,
             .TClose "html".data] := by
  exact ⟨rfl, rfl, rfl, rfl, rfl⟩

/-- C5: tokenizing a doctype tag leaves the cursor past the closing bracket
and records the payload range, but the call returns Special, not Doctype:
the Doctype branch of special_tag_handling assigns last_type and then falls
through into the trailing assignment that overwrites it with Special. -/
theorem c5_doctype_overwritten :
    ttOf (next_iteration (XmlPullParser.new "<!DOCTYPE html>".data)) = some .Special ∧
    ttOf (next_iteration (XmlPullParser.new "<!DOCTYPE html>".data)) ≠ some .Doctype ∧
    (stOf (next_iteration (XmlPullParser.new "<!DOCTYPE html>".data))).map
      PState.doc_type_range = some ⟨1, 14⟩ ∧
    (stOf (next_iteration (XmlPullParser.new "<!DOCTYPE html>".data))).map
      (fun st => st.input.input_position) = some 15 := by
  exact ⟨rfl, by decide, rfl, rfl⟩

theorem putAttributeCheck_err_shape (src : List Char) (lo posV : Nat)
    (a : XmlAttribute) (l : List XmlAttribute) (e : ParseException)
    (h : putAttributeCheck src lo posV a l = .err e) :
    ∃ lc pc k v, e = .AttributeExists lc pc posV k v ∧
      byteSlice src a.key_range = some k ∧ attrValueResolved src a = some v := by
  induction l with
  | nil => simp [putAttributeCheck] at h
  | cons hd tl ih =>
    unfold putAttributeCheck at h
    split at h
    · split at h
      · split at h
        · split at h
          · simp at h
          · split at h
            · split at h
              · simp at h
              · simp at h
                subst h
                refine ⟨_, _, _, _, rfl, ?_, ?_⟩
                · assumption
                · simp only [attrValueResolved]
                  simp_all
            · simp at h
              subst h
              refine ⟨_, _, _, _, rfl, ?_, ?_⟩
              · assumption
              · simp only [attrValueResolved]
                simp_all
        · exact ih h
      · simp at h
    · exact ih h

theorem put_attribute_err_shape (t : XmlTag) (a : XmlAttribute) (e : ParseException)
    (h : t.put_attribute a = .err e) :
    ∃ lc pc k v, e = .AttributeExists lc pc t.pos k v ∧
      byteSlice t.source a.key_range = some k ∧
      attrValueResolved t.source a = some v := by
  unfold XmlTag.put_attribute at h
  cases hc : putAttributeCheck t.source t.text_range.lo t.pos a t.attributes with
  | ok u => rw [hc] at h; simp [PRes.bind] at h
  | err e2 =>
    rw [hc] at h
    simp [PRes.bind] at h
    cases h
    exact putAttributeCheck_err_shape _ _ _ _ _ _ hc
  | crash => rw [hc] at h; simp [PRes.bind] at h

theorem putAttributeCheck_ok_noClash (src : List Char) (lo posV : Nat)
    (a : XmlAttribute) (l : List XmlAttribute) (u : Unit)
    (h : putAttributeCheck src lo posV a l = .ok u) :
    ∀ b ∈ l, keyNoClash src b a := by
  induction l with
  | nil => intro b hb; cases hb
  | cons hd tl ih =>
    intro b hb
    unfold putAttributeCheck at h
    split at h
    · split at h
      · split at h
        · split at h
          · simp at h
          · split at h
            · split at h
              · simp at h
              · simp at h
            · simp at h
        · cases hb with
          | head =>
            rename_i hlen _ _ nk ek hka hkh hne
            intro hcl
            rw [hka, hkh] at hcl
            exact hne (Option.some.inj hcl.2)
          | tail _ htl => exact ih h b htl
      · simp at h
    · cases hb with
      | head =>
        rename_i hlen
        intro hcl
        exact hlen hcl.1
      | tail _ htl => exact ih h b htl

theorem put_attribute_ok_shape (t : XmlTag) (a : XmlAttribute) (t2 : XmlTag)
    (h : t.put_attribute a = .ok t2) :
    t2 = { t with attributes := t.attributes ++ [a] } ∧
    ∀ b ∈ t.attributes, keyNoClash t.source b a := by
  unfold XmlTag.put_attribute at h
  cases hc : putAttributeCheck t.source t.text_range.lo t.pos a t.attributes with
  | ok u =>
    rw [hc] at h
    simp [PRes.bind] at h
    exact ⟨h.symm, putAttributeCheck_ok_noClash _ _ _ _ _ u hc⟩
  | err e2 => rw [hc] at h; simp [PRes.bind] at h
  | crash => rw [hc] at h; simp [PRes.bind] at h

theorem foldAttrs_ok_invariant (input : List Char) (astart : Nat) :
    ∀ (l : List AttributeRange) (t t2 : XmlTag),
    foldAttrs input astart t l = .ok t2 →
    t2.source = t.source ∧ t2.text_range = t.text_range ∧
    t2.modified = t.modified ∧ t2.tag_type = t.tag_type ∧
    (List.Pairwise (keyNoClash t.source) t.attributes →
      List.Pairwise (keyNoClash t.source) t2.attributes) := by
  intro l
  induction l with
  | nil =>
    intro t t2 h
    simp [foldAttrs] at h
    subst h
    exact ⟨rfl, rfl, rfl, rfl, fun p => p⟩
  | cons ar rest ih =>
    intro t t2 h
    unfold foldAttrs at h
    split at h
    · simp at h
    · rename_i value hval
      cases hput : t.put_attribute
          ⟨⟨astart + ar.key_range.lo, astart + ar.key_range.hi⟩,
            match unescape_markup value with
            | none => AttrValue.Raw ⟨astart + ar.value_range.lo, astart + ar.value_range.hi⟩
            | some s2 => AttrValue.Unescaped s2⟩ with
      | ok t3 =>
        rw [hput] at h
        simp only [PRes.bind] at h
        obtain ⟨ht3, hnc⟩ := put_attribute_ok_shape _ _ _ hput
        obtain ⟨h1, h2, h3, h4, h5⟩ := ih t3 t2 h
        subst ht3
        refine ⟨h1, h2, h3, h4, ?_⟩
        intro hp
        refine h5 ?_
        simp only []
        rw [List.pairwise_append]
        refine ⟨hp, List.pairwise_singleton _ _, ?_⟩
        intro x hx y hy
        simp at hy
        subst hy
        exact hnc x hx
      | err e2 => rw [hput] at h; simp [PRes.bind] at h
      | crash => rw [hput] at h; simp [PRes.bind] at h

theorem parse_tag_text_ok_invariant (input : List Char) (tag : XmlTag)
    (trng : Rng) (b : Bool) (t2 : XmlTag)
    (h : parse_tag_text input tag trng = .ok (b, t2)) :
    t2.source = tag.source ∧ t2.text_range = tag.text_range ∧
    t2.modified = tag.modified ∧ t2.tag_type = tag.tag_type ∧
    (tag.attributes = [] → List.Pairwise (keyNoClash tag.source) t2.attributes) := by
  unfold parse_tag_text at h
  cases hn : parse_tag_name input trng with
  | ok nn =>
    rw [hn] at h
    simp only [PRes.bind] at h
    split at h
    · split at h
      · simp at h
        obtain ⟨hb, ht⟩ := h
        subst ht
        exact ⟨rfl, rfl, rfl, rfl, fun he => by simp [he]⟩
      · cases hf : find_attribute_pairs input ⟨nn.1.hi, trng.hi⟩ with
        | ok pairs =>
          rw [hf] at h
          simp only [PRes.bind] at h
          cases hfold : foldAttrs input nn.1.hi
              ({ tag with name_range := (XmlString.Raw nn.1),
                          namespace_range := (nn.2.map XmlString.Raw) }) pairs with
          | ok t3 =>
            rw [hfold] at h
            simp only [PRes.bind] at h
            simp at h
            obtain ⟨hb, ht⟩ := h
            subst ht
            obtain ⟨h1, h2, h3, h4, h5⟩ := foldAttrs_ok_invariant _ _ _ _ _ hfold
            refine ⟨h1, h2, h3, h4, ?_⟩
            intro he
            have hpw := h5 (by simp [he])
            simpa using hpw
          | err e2 => rw [hfold] at h; simp [PRes.bind] at h
          | crash => rw [hfold] at h; simp [PRes.bind] at h
        | err e2 => rw [hf] at h; simp [PRes.bind] at h
        | crash => rw [hf] at h; simp [PRes.bind] at h
    · simp at h
      obtain ⟨hb, ht⟩ := h
      subst ht
      exact ⟨rfl, rfl, rfl, rfl, fun he => by simp [he]⟩
  | err e2 => rw [hn] at h; simp [PRes.bind] at h
  | crash => rw [hn] at h; simp [PRes.bind] at h

/-- C6, counterexample: tokenizing the spec's duplicate-attribute example
fails with the duplicate-attribute error naming key attr — but the value it
reports is the second (new) attribute's value 2, not the prior value 1 as
the claim states; only one value is carried. -/
theorem c6_counterexample :
    next_iteration (XmlPullParser.new c6input)
      = .err (.AttributeExists 0 0 (usizeMod - 1) "attr".data "2".data) ∧
    "2".data ≠ "1".data := by
  exact ⟨rfl, by decide⟩

/-- C6, amended: a key byte-identical to an existing key on the same tag
fails with DuplicateAttribute reporting the key and the value of the NEW
(second) attribute; on success the attribute is appended and clashes with
no existing key, so every successfully parsed tag has pairwise
non-clashing (hence pairwise distinct) attribute keys. -/
theorem c6_amended :
    (∀ (t : XmlTag) (a : XmlAttribute) (e : ParseException),
        t.put_attribute a = .err e →
        ∃ lc pc k v, e = .AttributeExists lc pc t.pos k v ∧
          byteSlice t.source a.key_range = some k ∧
          attrValueResolved t.source a = some v) ∧
    (∀ (t : XmlTag) (a : XmlAttribute) (t2 : XmlTag),
        t.put_attribute a = .ok t2 →
        t2 = { t with attributes := t.attributes ++ [a] } ∧
        ∀ b ∈ t.attributes, keyNoClash t.source b a) ∧
    (∀ (input : List Char) (range : Rng) (tt : TagType) (trng : Rng)
        (b : Bool) (t2 : XmlTag),
        parse_tag_text input (XmlTag.with_text input range tt) trng = .ok (b, t2) →
        List.Pairwise (keyNoClash input) t2.attributes) ∧
    next_iteration (XmlPullParser.new c6input)
      = .err (.AttributeExists 0 0 (usizeMod - 1) "attr".data "2".data) := by
  refine ⟨put_attribute_err_shape, put_attribute_ok_shape, ?_, rfl⟩
  intro input range tt trng b t2 h
  have hinv := parse_tag_text_ok_invariant input (XmlTag.with_text input range tt) trng b t2 h
  exact hinv.2.2.2.2 rfl

/-- C6, witness: the amended statement applied at concrete tags and
attributes, with every hypothesis discharged by computation. -/
theorem c6_amended_witness :
    byteSlice dupTag.source dupAttr.key_range = some "a".data ∧
    attrValueResolved dupTag.source dupAttr = some "b".data ∧
    okTagOut = ({ okTag with attributes := okTag.attributes ++ [okAttr] }) ∧
    List.Pairwise (keyNoClash c6inp2)
      [⟨⟨3, 4⟩, AttrValue.Raw ⟨6, 7⟩⟩, ⟨⟨9, 10⟩, AttrValue.Raw ⟨12, 13⟩⟩] := by
  obtain ⟨lc, pc, k, v, he, hk, hv⟩ :=
    c6_amended.1 dupTag dupAttr (.AttributeExists 0 1 0 "a".data "b".data) (by rfl)
  injection he with h1 h2 h3 h4 h5
  refine ⟨?_, ?_, (c6_amended.2.1 okTag okAttr okTagOut (by rfl)).1, ?_⟩
  · rw [← h4] at hk
    exact hk
  · rw [← h5] at hv
    exact hv
  · have hp := c6_amended.2.2.1 c6inp2 ⟨0, 15⟩ (TagType.Open none) ⟨1, 14⟩ true
      ({ XmlTag.with_text c6inp2 ⟨0, 15⟩ (TagType.Open none) with
         name_range := XmlString.Raw ⟨1, 2⟩,
         attributes := [⟨⟨3, 4⟩, AttrValue.Raw ⟨6, 7⟩⟩, ⟨⟨9, 10⟩, AttrValue.Raw ⟨12, 13⟩⟩] })
      rfl
    simpa using hp

/-- C7: a tag whose inner text matches the conditional-comment opener (and
is not a down-level close) emits ConditionalComment spanning from the
opener to the literal terminator while the cursor advances only past the
immediate close bracket, and fails UnclosedComment when the terminator is
absent.  On the spec's example, the first three calls emit
ConditionalComment, Open a, Body y as claimed — but the fourth call, which
should emit Close a, panics: scanning the quoted href pushed the line-count
memo index to 32 via count_lines_to(start_pos + i) with an already absolute
i, and the close tag at byte 25 then makes count_lines_to slice backwards. -/
theorem c7_conditional_comment :
    (∀ (st : PState) (trng : Rng) (open_i close_i : Nat) (txt : List Char),
        byteSlice st.input.input trng = some txt →
        "!--[if ".data.isPrefixOf txt = true →
        "]".data.isSuffixOf txt = true →
        containsSub txt "![endif]--".data = false →
        (∀ p, st.input.find_str_at "]-->".data (open_i + 1) = .ok (some p) →
          special_tag_handling st trng open_i close_i
            = .ok ({ st with
                     last_text_range := ⟨open_i, p + 4⟩,
                     input := { st.input with input_position := close_i + 1 },
                     last_type := HttpTagType.ConditionalComment })) ∧
        (st.input.find_str_at "]-->".data (open_i + 1) = .ok none →
          special_tag_handling st trng open_i close_i
            = .err (.UnclosedComment st.input.line_number st.input.column_number
                st.input.input_position))) ∧
    ttOf c7r1 = some HttpTagType.ConditionalComment ∧
    (stOf c7r1).map PState.last_text_range = some ⟨0, 41⟩ ∧
    (stOf c7r1).map (fun s => s.input.input_position) = some 12 ∧
    c7r2.map ttOf = some (some HttpTagType.Tag) ∧
    ((stOf2 c7r2).bind PState.last_tag).bind XmlTag.name = some "a".data ∧
    ((stOf2 c7r2).bind PState.last_tag).map XmlTag.is_open = some true ∧
    c7r3.map ttOf = some (some HttpTagType.Body) ∧
    (stOf2 c7r2).map (fun s => s.input.input_position) = some 24 ∧
    (stOf2 c7r3).map (fun s => s.input.input_position) = some 25 ∧
    c7r4 = some PRes.crash := by
  refine ⟨?_, rfl, rfl, rfl, rfl, rfl, rfl, rfl, rfl, rfl, rfl⟩
  intro st trng open_i close_i txt hslice hpre hsuf hnod
  have hpre3 : "!--".data.isPrefixOf txt = true := by
    rw [List.isPrefixOf_iff_prefix] at hpre ⊢
    exact (by decide : "!--".data <+: "!--[if ".data).trans hpre
  constructor
  · intro p hfind
    unfold special_tag_handling
    rw [hslice]
    simp only [hpre3, if_true, hnod]
    simp only [containsSub] at hnod
    simp only [hpre, hsuf, if_true, Bool.false_eq_true, if_false, and_self, ite_true]
    rw [hfind]
    simp [PRes.bind, hnod]
  · intro hfind
    unfold special_tag_handling
    rw [hslice]
    simp only [hpre3, if_true, hnod]
    simp only [hpre, hsuf, if_true, Bool.false_eq_true, if_false, and_self, ite_true]
    rw [hfind]
    simp [PRes.bind, hnod]

/-- C7, witness: the general conditional-comment statement applied at the
example's opening state (terminator present at byte 37) and at a
terminator-less variant. -/
theorem c7_witness :
    special_tag_handling (XmlPullParser.new c7input) ⟨1, 11⟩ 0 11
      = .ok ({ XmlPullParser.new c7input with
               last_text_range := ⟨0, 41⟩,
               input := { (XmlPullParser.new c7input).input with input_position := 12 },
               last_type := HttpTagType.ConditionalComment }) ∧
    special_tag_handling (XmlPullParser.new "<!--[if IE]>x".data) ⟨1, 11⟩ 0 11
      = .err (.UnclosedComment 1 1 0) :=
  ⟨(c7_conditional_comment.1 (XmlPullParser.new c7input) ⟨1, 11⟩ 0 11
      "!--[if IE]".data rfl (by decide) (by decide) (by decide)).1 37 rfl,
   (c7_conditional_comment.1 (XmlPullParser.new "<!--[if IE]>x".data) ⟨1, 11⟩ 0 11
      "!--[if IE]".data rfl (by decide) (by decide) (by decide)).2 rfl⟩

/-- C8: every tag built the way the tokenizer builds tags (with_text over
the source and tag range, then attribute parsing) has the modified flag
unset, points at the source it came from, and re-serializes via
to_char_sequence to exactly the source byte range of the tag; concretely,
the tag emitted for the one-tag input round-trips to the whole input. -/
theorem c8_roundtrip :
    (∀ (input : List Char) (range : Rng) (tt : TagType) (trng : Rng)
        (b : Bool) (t : XmlTag),
        parse_tag_text input (XmlTag.with_text input range tt) trng = .ok (b, t) →
        t.modified = false ∧ t.source = input ∧ t.text_range = range ∧
        t.to_char_sequence = byteSlice input range) ∧
    (((stOf (next_iteration (XmlPullParser.new c8input))).bind PState.last_tag).map
        XmlTag.to_char_sequence) = some (some c8input) := by
  refine ⟨?_, rfl⟩
  intro input range tt trng b t h
  obtain ⟨h1, h2, h3, _, _⟩ :=
    parse_tag_text_ok_invariant input (XmlTag.with_text input range tt) trng b t h
  have hm : t.modified = false := h3
  have hs : t.source = input := h1
  have hr : t.text_range = range := h2
  refine ⟨hm, hs, hr, ?_⟩
  simp [XmlTag.to_char_sequence, XmlTag.text, hm, hs, hr]

/-- C8, witness: the round-trip statement applied to the tag parsed from a
self-closing tag input. -/
theorem c8_roundtrip_witness :
    c8t.modified = false ∧ c8t.source = "<tag/>".data ∧
    c8t.text_range = ⟨0, 6⟩ ∧
    c8t.to_char_sequence = byteSlice "<tag/>".data ⟨0, 6⟩ :=
  c8_roundtrip.1 "<tag/>".data ⟨0, 6⟩ TagType.OpenClose ⟨1, 4⟩ true c8t (by rfl)

/-- C9: the quote-aware search is not total — from start position 10 on the
nineteen-byte input it panics, because upon entering the quote at absolute
byte 15 it calls count_lines_to(start_pos + i) with the already absolute
i = 15, slicing to 25, past the end of the buffer; from start position 0
(where start_pos + i = i) the same search is fine and finds the bracket. -/
theorem c9_find_out_of_quotes_crash :
    Reader.find_out_of_quotes (Reader.new_from_string c9input) '>' 10 none = .crash ∧
    byteLen c9input = 19 ∧
    (Reader.new_from_string c9input).count_lines_to 25 = .crash ∧
    foqIdx (Reader.find_out_of_quotes (Reader.new_from_string c9input) '>' 0 none)
      = some (some 18) := by
  exact ⟨rfl, rfl, rfl, rfl⟩

/-- C10: pos() computes text_range.start - 1 on usize, so it underflows
(wrapping to 2^64 - 1; panicking in debug builds) whenever the tag's open
bracket is the first byte of the document — which the tokenizer produces,
since the stored text range does start at the open bracket's byte offset;
the duplicate-attribute error path then reports that wrapped position, as
on the spec's own duplicate-attribute example, whose open bracket is at
byte 0. -/
theorem c10_pos_underflow :
    (∀ t : XmlTag, t.text_range.lo = 0 → t.pos = usizeMod - 1) ∧
    (∀ t : XmlTag, 1 ≤ t.text_range.lo → t.text_range.lo < usizeMod →
      t.pos = t.text_range.lo - 1) ∧
    ((stOf (next_iteration (XmlPullParser.new "<b>".data))).bind PState.last_tag).map
      XmlTag.text_range = some ⟨0, 3⟩ ∧
    next_iteration (XmlPullParser.new c6input)
      = .err (.AttributeExists 0 0 (usizeMod - 1) "attr".data "2".data) := by
  refine ⟨?_, ?_, rfl, rfl⟩
  · intro t h
    simp [XmlTag.pos, h, usizeMod]
  · intro t h1 h2
    simp only [XmlTag.pos, usizeMod] at h2 ⊢
    omega

/-- C10, witness: pos applied at a tag whose range starts at byte zero and
at one whose range starts at byte one. -/
theorem c10_pos_underflow_witness :
    c2xml.pos = usizeMod - 1 ∧ dupTag.pos = dupTag.text_range.lo - 1 :=
  ⟨c10_pos_underflow.1 c2xml rfl,
   c10_pos_underflow.2.1 dupTag (by decide) (by decide)⟩

/-- C4, counterexample: an input of twenty-six bytes with neither a BOM nor
an xml declaration fails InvalidXmlDeclaration instead of resolving to
UTF-8 as the claim's neither-present case requires. -/
theorem c4_counterexample :
    determine_encoding c4plain = .err .InvalidXmlDeclaration ∧
    c4plain.length = 26 ∧
    bomDetect (c4plain.take (min 80 c4plain.length)) = ("utf-8".data, 0) ∧
    xmlDeclMatch "<html><body></body></html>".data = none := by
  refine ⟨by rfl, rfl, by rfl, by rfl⟩

/-- C4, amended: resolution over the first eighty bytes behaves as follows.
Inputs shorter than four bytes resolve to UTF-8 with no declaration scan.
Otherwise the bytes after any BOM must decode and begin with an anchored
xml declaration, else resolution fails InvalidDeclaration — including for
inputs with no BOM and no declaration at all, and for BOM-only inputs.
With a declaration present: no encoding value yields the BOM result (or
UTF-8 without a BOM); an encoding value with no BOM yields that value; an
encoding value equal (case-insensitively) to a detected BOM yields the BOM
name; a differing pair fails EncodingMismatch naming both; and a resolved
name missing from the decoder table fails UnsupportedEncoding (NoDecoder)
in the stream constructor. -/
theorem c4_amended :
    (∀ buffer : List Nat, buffer.length < 4 →
      determine_encoding buffer = .ok ⟨"utf-8".data, 0⟩) ∧
    (∀ (buffer : List Nat) (xs : List Char), 4 ≤ buffer.length →
      utf8DecodeBytes ((buffer.take (min 80 buffer.length)).drop
        (bomDetect (buffer.take (min 80 buffer.length))).2) = some xs →
      xmlDeclMatch xs = none →
      determine_encoding buffer = .err .InvalidXmlDeclaration) ∧
    (∀ (buffer : List Nat) (xs d enc : List Char), 4 ≤ buffer.length →
      utf8DecodeBytes ((buffer.take (min 80 buffer.length)).drop
        (bomDetect (buffer.take (min 80 buffer.length))).2) = some xs →
      xmlDeclMatch xs = some d →
      xmlEncodingCapture d = some enc →
      (bomDetect (buffer.take (min 80 buffer.length))).2 = 0 →
      determine_encoding buffer = .ok ⟨enc, 0⟩) ∧
    (∀ (buffer : List Nat) (xs d enc : List Char), 4 ≤ buffer.length →
      utf8DecodeBytes ((buffer.take (min 80 buffer.length)).drop
        (bomDetect (buffer.take (min 80 buffer.length))).2) = some xs →
      xmlDeclMatch xs = some d →
      xmlEncodingCapture d = some enc →
      (bomDetect (buffer.take (min 80 buffer.length))).2 ≠ 0 →
      asciiCiEq enc (bomDetect (buffer.take (min 80 buffer.length))).1 = true →
      determine_encoding buffer
        = .ok ⟨(bomDetect (buffer.take (min 80 buffer.length))).1,
               (bomDetect (buffer.take (min 80 buffer.length))).2⟩) ∧
    (∀ (buffer : List Nat) (xs d enc : List Char), 4 ≤ buffer.length →
      utf8DecodeBytes ((buffer.take (min 80 buffer.length)).drop
        (bomDetect (buffer.take (min 80 buffer.length))).2) = some xs →
      xmlDeclMatch xs = some d →
      xmlEncodingCapture d = some enc →
      (bomDetect (buffer.take (min 80 buffer.length))).2 ≠ 0 →
      asciiCiEq enc (bomDetect (buffer.take (min 80 buffer.length))).1 = false →
      determine_encoding buffer
        = .err (.XmlEncodingMismatch
            (bomDetect (buffer.take (min 80 buffer.length))).1 enc)) ∧
    (∀ (buffer : List Nat) (xs d : List Char), 4 ≤ buffer.length →
      utf8DecodeBytes ((buffer.take (min 80 buffer.length)).drop
        (bomDetect (buffer.take (min 80 buffer.length))).2) = some xs →
      xmlDeclMatch xs = some d →
      xmlEncodingCapture d = none →
      determine_encoding buffer
        = .ok ⟨(bomDetect (buffer.take (min 80 buffer.length))).1,
               (bomDetect (buffer.take (min 80 buffer.length))).2⟩) ∧
    (∀ (forLabel : List Char → Option (List Char)) (buffer : List Nat)
        (res : EncodingResult),
      determine_encoding buffer = .ok res →
      forLabel res.encoding = none →
      new_stream_encoding_resolution forLabel buffer = .err (.NoDecoder res.encoding)) := by
  refine ⟨?_, ?_, ?_, ?_, ?_, ?_, ?_⟩
  · intro buffer h
    unfold determine_encoding
    rw [if_pos (by omega)]
  · intro buffer xs h4 hdec hnod
    unfold determine_encoding
    rw [if_neg (by omega)]
    simp only [hdec, hnod]
  · intro buffer xs d enc h4 hdec hd henc hbl
    unfold determine_encoding
    rw [if_neg (by omega)]
    rw [hbl] at hdec
    simp only [List.drop_zero] at hdec
    simp [hbl, hdec, hd, henc]
  · intro buffer xs d enc h4 hdec hd henc hbl hci
    unfold determine_encoding
    rw [if_neg (by omega)]
    simp [hdec, hd, henc, hbl, hci]
  · intro buffer xs d enc h4 hdec hd henc hbl hci
    unfold determine_encoding
    rw [if_neg (by omega)]
    simp [hdec, hd, henc, hbl, hci]
  · intro buffer xs d h4 hdec hd henc
    unfold determine_encoding
    rw [if_neg (by omega)]
    simp [hdec, hd, henc]
  · intro forLabel buffer res hde hfl
    unfold new_stream_encoding_resolution
    rw [hde]
    simp [PRes.bind, hfl]

/-- C4, witness: every amended case applied at a concrete byte input. -/
theorem c4_amended_witness :
    determine_encoding c4short = .ok ⟨"utf-8".data, 0⟩ ∧
    determine_encoding c4plain = .err .InvalidXmlDeclaration ∧
    determine_encoding c4declU = .ok ⟨"UTF-8".data, 0⟩ ∧
    determine_encoding c4bomU = .ok ⟨"utf-8".data, 3⟩ ∧
    determine_encoding c4bomL = .err (.XmlEncodingMismatch "utf-8".data "latin1".data) ∧
    determine_encoding c4noenc = .ok ⟨"utf-8".data, 0⟩ ∧
    new_stream_encoding_resolution (fun _ => none) c4declU = .err (.NoDecoder "UTF-8".data) := by
  refine ⟨c4_amended.1 c4short (by decide), ?_, ?_, ?_, ?_, ?_, ?_⟩
  · exact c4_amended.2.1 c4plain "<html><body></body></html>".data
      (by decide) (by rfl) (by rfl)
  · exact c4_amended.2.2.1 c4declU
      "<?xml version=\u00221.0\u0022 encoding=\u0022UTF-8\u0022?>".data
      "<?xml version=\u00221.0\u0022 encoding=\u0022UTF-8\u0022?>".data
      "UTF-8".data (by decide) (by rfl) (by rfl) (by rfl) (by rfl)
  · exact c4_amended.2.2.2.1 c4bomU
      "<?xml version=\u00221.0\u0022 encoding=\u0022UTF-8\u0022?>".data
      "<?xml version=\u00221.0\u0022 encoding=\u0022UTF-8\u0022?>".data
      "UTF-8".data (by decide) (by rfl) (by rfl) (by rfl) (by decide) (by rfl)
  · exact c4_amended.2.2.2.2.1 c4bomL
      "<?xml version=\u00221.0\u0022 encoding=\u0022latin1\u0022?>".data
      "<?xml version=\u00221.0\u0022 encoding=\u0022latin1\u0022?>".data
      "latin1".data (by decide) (by rfl) (by rfl) (by rfl) (by decide) (by rfl)
  · exact c4_amended.2.2.2.2.2.1 c4noenc
      "<?xml version=\u00221.0\u0022 ?>".data
      "<?xml version=\u00221.0\u0022 ?>".data
      (by decide) (by rfl) (by rfl) (by rfl)
  · exact c4_amended.2.2.2.2.2.2 (fun _ => none) c4declU ⟨"UTF-8".data, 0⟩ (by rfl) rfl

end WicketRs
